import Mathlib

/-!
Verification of the DataOrcid synchronization engine.

This file gives a shallow embedding, in Lean 4, of the core services of the
DataOrcid repository (`app/services/orcid_service.py`, `app/services/ror_service.py`,
`app/services/cache_service.py`, `app/commands.py`, `app/blueprints/cache_control.py`)
and proves properties of the embedded definitions.

Modelling conventions:
* Network I/O is replaced by explicit oracles passed in an `Upstream` record:
  the outcome of each HTTP attempt, the search result pages, the per-id profile
  fetch outcome, and the success of each bulk-insert commit.
* Python dictionaries used as ordered, insertion-order-preserving maps are
  modelled as association lists with an `upsert` operation that keeps the
  position of an existing key and appends new keys.
* Python truthiness of optional strings (`None` and `""` are falsy) is the
  function `truthy`.
* `str.lower` and `str.strip` are modelled by `strLower`/`strTrim` on the
  character list of the string (ASCII lowercasing, whitespace trimming); these
  are definitionally executable so concrete runs evaluate inside proofs.
* JSON documents are modelled by typed records: a field that the code reads
  with `dict.get` is an `Option`/`List` field (absent or JSON-null values map
  to `none`/`[]` exactly where the Python `or {}` / default-argument idioms
  make them interchangeable).  Chains of optional accesses such as
  `(work.get('title') or {}).get('title')` are collapsed into one optional
  leaf field of the record.
* Thread-pool fetching (`get_all_profiles_concurrently`) is modelled with the
  submission order standing in for the `as_completed` order; every property
  proved below is about the key set, per-key values or counts, which are
  independent of completion order.
-/

/-- Python truthiness of an optional string: `None` and `""` are falsy. -/
def truthy : Option String → Bool
  | none => false
  | some s => !s.isEmpty

/-- ASCII lowercasing of one character, as `str.lower` acts on ASCII data. -/
def lowerChar (c : Char) : Char :=
  if 65 ≤ c.toNat ∧ c.toNat ≤ 90 then Char.ofNat (c.toNat + 32) else c

/-- Model of Python `str.lower()`. -/
def strLower (s : String) : String := ⟨s.data.map lowerChar⟩

/-- Whitespace characters stripped by Python `str.strip()`. -/
def isSpaceChar (c : Char) : Bool :=
  c.toNat = 32 || c.toNat = 9 || c.toNat = 10 || c.toNat = 13 || c.toNat = 11 || c.toNat = 12

/-- Model of Python `str.strip()`. -/
def strTrim (s : String) : String :=
  ⟨((s.data.dropWhile isSpaceChar).reverse.dropWhile isSpaceChar).reverse⟩

/-- `optOr a b` is `a` unless `a` is `none`; models falling back to a second value. -/
def optOr {α : Type} (a b : Option α) : Option α :=
  match a with
  | some x => some x
  | none => b

/-- Whether a list starts with the given list (helper for substring search). -/
def isStartOf {α : Type} [DecidableEq α] : List α → List α → Bool
  | [], _ => true
  | _ :: _, [] => false
  | a :: as, b :: bs => a = b && isStartOf as bs

/-- Whether `needle` occurs as a contiguous sublist of the second argument. -/
def hasSubList {α : Type} [DecidableEq α] (needle : List α) : List α → Bool
  | [] => isStartOf needle []
  | a :: rest => isStartOf needle (a :: rest) || hasSubList needle rest

/-- Model of the Python substring test `needle in hay`. -/
def strHasSub (hay needle : String) : Bool := hasSubList needle.data hay.data

/-- Keys of an association list (the Python dict's key view, in insertion order). -/
def keysOf {α : Type} (m : List (String × α)) : List String := m.map Prod.fst

/-- Assignment `m[k] = v` on an insertion-ordered Python dict: an existing key
keeps its position and gets the new value, a new key is appended. -/
def upsert {α : Type} : List (String × α) → String → α → List (String × α)
  | [], k, v => [(k, v)]
  | p :: t, k, v => if p.1 = k then (k, v) :: t else p :: upsert t k v

/-- `m.get(k)` on the association-list model of a Python dict. -/
def lookupKey {α : Type} (m : List (String × α)) (k : String) : Option α :=
  match m.find? (fun p => p.1 == k) with
  | some p => some p.2
  | none => none

/-- The keys of a list of strings in first-occurrence order, starting from the
keys already accumulated; describes the key order of an insertion-ordered dict. -/
def firstOccAux (acc : List String) : List String → List String
  | [] => acc
  | k :: ks => firstOccAux (if k ∈ acc then acc else acc ++ [k]) ks

/-!
## Resilient fetcher (`orcid_service.safe_get`)

One HTTP attempt either yields a response with a status code or fails at the
network level (`requests.exceptions.RequestException`).  The oracle maps the
attempt number (starting at 1) to its outcome.  Sleep durations are recorded
in tenths of a second: the `429` branch sleeps `2 * attempt` seconds, i.e.
`20 * attempt` tenths, and the transient branch sleeps `0.5 * attempt`
seconds, i.e. `5 * attempt` tenths.
-/

/-- Outcome of one `requests.get` call. -/
inductive HttpAttempt where
  | resp (status : Nat)
  | netErr
deriving DecidableEq, Repr

/-- Observable trace of one `safe_get` call: the status of the returned
response (`none` when the function returns `None`), the number of GET attempts
performed, and the sleeps executed, in tenths of a second, in order. -/
structure FetchTrace where
  result : Option Nat
  requests : Nat
  sleeps : List Nat
deriving DecidableEq, Repr

/-- The retry loop of `safe_get`, from a given attempt number with the given
number of loop iterations remaining.  Mirrors the status checks in source
order: 200, 429, 404, then 401/403, then the transient fallthrough shared
with the network-error handler. -/
def safeGetGo (resps : Nat → HttpAttempt) (retries : Nat) : Nat → Nat → FetchTrace
  | 0, _ => ⟨none, 0, []⟩
  | fuel + 1, attempt =>
    match resps attempt with
    | HttpAttempt.resp s =>
      if s = 200 then ⟨some 200, 1, []⟩
      else if s = 429 then
        let t := safeGetGo resps retries fuel (attempt + 1)
        ⟨t.result, t.requests + 1, 20 * attempt :: t.sleeps⟩
      else if s = 404 then ⟨some 404, 1, []⟩
      else if s = 401 ∨ s = 403 then ⟨none, 1, []⟩
      else
        let t := safeGetGo resps retries fuel (attempt + 1)
        ⟨t.result, t.requests + 1, (if attempt < retries then [5 * attempt] else []) ++ t.sleeps⟩
    | HttpAttempt.netErr =>
      let t := safeGetGo resps retries fuel (attempt + 1)
      ⟨t.result, t.requests + 1, (if attempt < retries then [5 * attempt] else []) ++ t.sleeps⟩

/-- `safe_get`: attempts `1 .. retries` against the response oracle. -/
def safe_get (resps : Nat → HttpAttempt) (retries : Nat := 3) : FetchTrace :=
  safeGetGo resps retries retries 1

/-- An outcome the `safe_get` loop treats as transient: a network-level error
or any status other than 200, 404, 401, 403 and 429. -/
def isTransient : HttpAttempt → Bool
  | HttpAttempt.netErr => true
  | HttpAttempt.resp s => !(s = 200 || s = 429 || s = 404 || s = 401 || s = 403)

/-- The sleeps of an all-transient run: `0.5 * attempt` seconds (5 tenths times
the attempt number) before each retry, with no sleep after the final attempt. -/
def transientSleepsAux (retries : Nat) : Nat → Nat → List Nat
  | 0, _ => []
  | fuel + 1, attempt =>
    (if attempt < retries then [5 * attempt] else []) ++ transientSleepsAux retries fuel (attempt + 1)

/-!
## Identifier healer, external half (`ror_service.fetch_grid_from_ror`)

The ROR API call is replaced by an oracle describing the response: a parsed
200 body (whose `external_ids` field comes in the list shape or the legacy
map shape), a 404, another status code, or a network error.  Parsing failures
inside the 200 branch are covered by the two body shapes; the function's
`except` clauses map every failure to `None`.
-/

/-- One typed identifier object of the modern (list) `external_ids` shape. -/
structure RorIdent where
  typ : Option String
  preferred : Option String
  allIds : Option (List String)
deriving DecidableEq, Repr

/-- The legacy (map) shape's `GRID` entry, when the key is present. -/
structure RorGridData where
  preferred : Option String
  allIds : Option (List String)
deriving DecidableEq, Repr

/-- The `external_ids` field of a 200 response body. -/
inductive RorExternalIds where
  | list (ids : List RorIdent)
  | dict (grid : Option RorGridData)
deriving DecidableEq, Repr

/-- Outcome of the single `requests.get` against the ROR API. -/
inductive RorOutcome where
  | ok (externalIds : RorExternalIds)
  | notFound
  | otherStatus (code : Nat)
  | netError
deriving DecidableEq, Repr

/-- `identifier.get('preferred') or (identifier.get('all') and identifier['all'][0])`:
the preferred id when truthy, else the head of the `all` list.  The Python
expression returns a falsy non-string (`None` or `[]`) when both fall through;
every caller only ever tests the result for truthiness, so those falsy values
are collapsed to `none`. -/
def preferredOrFirst (preferred : Option String) (allIds : Option (List String)) : Option String :=
  if truthy preferred then preferred
  else
    match allIds with
    | some (x :: _) => some x
    | some [] => none
    | none => none

/-- `fetch_grid_from_ror`: resolves a GRID id from the ROR API response, or
`None` on 404, unexpected status, network error, or an absent grid entry.
The URL sanitisation of the input `ror_id` only affects the request URL,
which the oracle already stands for. -/
def fetch_grid_from_ror (o : RorOutcome) : Option String :=
  match o with
  | RorOutcome.ok (RorExternalIds.list ids) =>
    match ids.find? (fun i => i.typ == some "grid") with
    | some i => preferredOrFirst i.preferred i.allIds
    | none => none
  | RorOutcome.ok (RorExternalIds.dict grid) =>
    match grid with
    | some g => preferredOrFirst g.preferred g.allIds
    | none => none
  | RorOutcome.notFound => none
  | RorOutcome.otherStatus _ => none
  | RorOutcome.netError => none

/-!
## Registry search (`orcid_service.list_orcids_for_institution`)

Search result records are dictionaries of which the code reads only the
`orcid-id` field; the remaining fields are abstracted as an opaque payload so
that overwriting a duplicate by a later record is observable.
-/

/-- One entry of an `expanded-result` page. -/
structure SearchRec where
  orcidId : Option String
  payload : List (String × String)
deriving DecidableEq, Repr

/-- The deduplication key of a record: `(record.get("orcid-id") or "").strip()`. -/
def searchKey (r : SearchRec) : String := strTrim (r.orcidId.getD "")

/-- Processing of one record of a page: records with a falsy stripped id are
skipped, the others are upserted into the insertion-ordered dict. -/
def searchPageStep (m : List (String × SearchRec)) (r : SearchRec) : List (String × SearchRec) :=
  if searchKey r = "" then m else upsert m (searchKey r) r

/-- The Lucene clause for the ROR identifier. -/
def rorClause (r : String) : String := "ror-org-id:\"https://ror.org/" ++ r ++ "\""

/-- The Lucene clause for the GRID identifier. -/
def gridClause (g : String) : String := "grid-org-id:\"" ++ g ++ "\""

/-- The OR-combined query over whichever identifiers are truthy, or `none`
when both are absent (the search then aborts with an empty result). -/
def buildQuery (ror? grid? : Option String) : Option String :=
  let parts :=
    (if truthy ror? then [rorClause (ror?.getD "")] else [])
      ++ (if truthy grid? then [gridClause (grid?.getD "")] else [])
  if parts.isEmpty then none else some (String.intercalate " OR " parts)

/-!
## The upstream oracle

All network and storage nondeterminism of one rebuild invocation, fixed in
advance.  `pages q start` is the outcome of the search request for query `q`
at offset `start` (`none` = failed request, non-200 response, or a JSON
error, all of which break the pagination loop).  `flushOk n` tells whether
the `n`-th bulk flush commit of the invocation succeeds.  `pageFuel` bounds
the number of pages the (in Python, unbounded) pagination loop may consume;
every theorem below holds for every bound.
-/

/-- One value of a summary dictionary, as the classifier inspects it: either
not a dict, or a dict together with whether it has a `source` key and the
value found under `source → source-client-id → path` (with each missing or
null link collapsing to `none`, as the `or {}` chain does). -/
inductive SumVal where
  | nonDict
  | dict (hasSource : Bool) (path : Option String)
deriving DecidableEq, Repr

/-- One affiliation group: its `summaries` list (`group.get('summaries', [])`),
each summary being the value sequence of its dictionary. -/
structure AffGroup where
  summaries : List (List SumVal)
deriving DecidableEq, Repr

/-- One activity section: its `affiliation-group` list
(`section_data.get('affiliation-group', [])`). -/
structure SectionData where
  affiliationGroup : List AffGroup
deriving DecidableEq, Repr

/-- One `external-id` object of a work or funding summary. -/
structure ExternalId where
  typ : Option String
  val : Option String
deriving DecidableEq, Repr

/-- One `work-summary` object, with each optionally-chained leaf the code
reads collapsed into one optional field. -/
structure WorkSummary where
  titleValue : Option String
  typ : Option String
  putCode : Option Nat
  journalTitle : Option String
  pubYear : Option String
  pubMonth : Option String
  pubDay : Option String
  externalIds : List ExternalId
  sourceName : Option String
  url : Option String
  visibility : Option String
deriving DecidableEq, Repr

/-- One `group` entry of the works container, with its `work-summary` list. -/
structure WorkGroup where
  workSummary : List WorkSummary
deriving DecidableEq, Repr

/-- The `works` container of the activities summary. -/
structure WorksContainer where
  group : List WorkGroup
deriving DecidableEq, Repr

/-- One `funding-summary` object, with optional chains collapsed as for works. -/
structure FundingSummary where
  titleValue : Option String
  typ : Option String
  orgName : Option String
  city : Option String
  country : Option String
  startY : Option String
  startM : Option String
  startD : Option String
  endY : Option String
  endM : Option String
  endD : Option String
  externalIds : List ExternalId
  currency : Option String
  amount : Option String
  sourceName : Option String
  visibility : Option String
  url : Option String
deriving DecidableEq, Repr

/-- One `group` entry of the fundings container. -/
structure FundingGroup where
  fundingSummary : List FundingSummary
deriving DecidableEq, Repr

/-- The `fundings` container of the activities summary. -/
structure FundingsContainer where
  group : List FundingGroup
deriving DecidableEq, Repr

/-- The `activities-summary` subtree: the seven affiliation sections the
classifier scans, plus the works and fundings containers.  An absent or null
section is `none`. -/
structure ActivitiesSummary where
  employments : Option SectionData
  educations : Option SectionData
  qualifications : Option SectionData
  invitedPositions : Option SectionData
  distinctions : Option SectionData
  memberships : Option SectionData
  services : Option SectionData
  works : Option WorksContainer
  fundings : Option FundingsContainer
deriving DecidableEq, Repr

/-- A non-empty profile document, as far as the cache builders read it. -/
structure Profile where
  activities : Option ActivitiesSummary
deriving DecidableEq, Repr

/-- The upstream world of one invocation. -/
structure Upstream where
  searchUrl : Option String
  memberUrl : Option String
  token : Option String
  systemClientId : Option String
  gridLookup : RorOutcome
  pages : String → Nat → Option (List SearchRec)
  profileOf : String → Option Profile
  pageFuel : Nat
  flushOk : Nat → Bool
  healCommitOk : Bool

/-- The pagination loop: requests pages of `rows` entries from the given
offset, folding each page's records into the dedup map, and stops on a failed
request, an empty page, or a short page. -/
def searchPaginate (up : Upstream) (q : String) (rows : Nat) :
    Nat → Nat → List (String × SearchRec) → List (String × SearchRec)
  | 0, _, acc => acc
  | fuel + 1, start, acc =>
    match up.pages q start with
    | none => acc
    | some chunk =>
      if chunk.isEmpty then acc
      else
        let acc2 := chunk.foldl searchPageStep acc
        if chunk.length < rows then acc2
        else searchPaginate up q rows fuel (start + rows) acc2

/-- The records the pagination loop actually consumes, flattened in order. -/
def consumedChunks (up : Upstream) (q : String) (rows : Nat) : Nat → Nat → List SearchRec
  | 0, _ => []
  | fuel + 1, start =>
    match up.pages q start with
    | none => []
    | some chunk =>
      if chunk.isEmpty then []
      else if chunk.length < rows then chunk
      else chunk ++ consumedChunks up q rows fuel (start + rows)

/-- The dedup map built by `list_orcids_for_institution`: empty when the
search URL is not configured or no identifier is given, else the paginated
accumulation for the OR-combined query. -/
def searchAssocFor (up : Upstream) (ror? grid? : Option String) (rows : Nat) :
    List (String × SearchRec) :=
  if !truthy up.searchUrl then []
  else
    match buildQuery ror? grid? with
    | none => []
    | some q => searchPaginate up q rows up.pageFuel 0 []

/-- The records consumed on behalf of `list_orcids_for_institution`, under the
same guards. -/
def consumedFor (up : Upstream) (ror? grid? : Option String) (rows : Nat) : List SearchRec :=
  if !truthy up.searchUrl then []
  else
    match buildQuery ror? grid? with
    | none => []
    | some q => consumedChunks up q rows up.pageFuel 0

/-- The pagination and deduplication for one raw query (the part of
`list_orcids_for_institution` after the query is built): the value view of
the dedup map. -/
def searchRaw (up : Upstream) (q : String) (rows : Nat) : List SearchRec :=
  (searchPaginate up q rows up.pageFuel 0 []).map Prod.snd

/-- `list_orcids_for_institution`: `list(unique_results.values())`. -/
def list_orcids_for_institution (up : Upstream) (ror? grid? : Option String)
    (rows : Nat := 1000) : List SearchRec :=
  (searchAssocFor up ror? grid? rows).map Prod.snd

/-!
## Affiliation classifier (`cache_service._extract_status_from_profile`)
-/

/-- Whether a summary value is a dict carrying a `source` key
(`isinstance(val, dict) and 'source' in val`). -/
def isSourceDict : SumVal → Bool
  | SumVal.dict hasSource _ => hasSource
  | SumVal.nonDict => false

/-- The client-id path of the first source-carrying dict value of a summary
(`next(...)` over `summary.values()`), or `none` when there is no such value
or the `source → source-client-id → path` chain breaks. -/
def firstSourcePath (s : List SumVal) : Option String :=
  match s.find? isSourceDict with
  | some (SumVal.dict _ p) => p
  | some SumVal.nonDict => none
  | none => none

/-- Whether one summary matches: its first source-carrying value has a truthy
client-id path that is in the trusted list
(`if source_client_path and source_client_path in trusted_ids`). -/
def summaryManaged (trusted : List String) (s : List SumVal) : Bool :=
  match firstSourcePath s with
  | some p => !p.isEmpty && trusted.contains p
  | none => false

/-- The seven activity sections, in the order `sections_to_check` lists them. -/
def sectionList (a : ActivitiesSummary) : List (Option SectionData) :=
  [a.employments, a.educations, a.qualifications, a.invitedPositions,
   a.distinctions, a.memberships, a.services]

/-- The `is_managed` computation of `_extract_status_from_profile`: scan the
seven sections, their affiliation groups and summaries, short-circuiting on
the first matching summary; every absent piece is a non-match. -/
def isManaged (act? : Option ActivitiesSummary) (trusted : List String) : Bool :=
  match act? with
  | none => false
  | some a =>
    (sectionList a).any fun sd? =>
      match sd? with
      | none => false
      | some sd => sd.affiliationGroup.any fun g => g.summaries.any (summaryManaged trusted)

/-- A status row of the `researcher_status` table. -/
structure StatusRow where
  rorId : String
  orcid : String
  isManagedByAm : Bool
deriving DecidableEq, Repr

/-- `_extract_status_from_profile`, producing the status row for one profile. -/
def extract_status_from_profile (p : Profile) (ror orcid : String) (trusted : List String) :
    StatusRow :=
  ⟨ror, orcid, isManaged p.activities trusted⟩

/-- The claim's reading of the classifier, written from the spec sentence: a
profile is managed iff SOME summary value (not only the first source-carrying
one) is a dict with a `source` field whose client-id path is a member of the
trusted set.  Kept separate from `isManaged` to compare the two. -/
def specManaged (act? : Option ActivitiesSummary) (trusted : List String) : Bool :=
  match act? with
  | none => false
  | some a =>
    (sectionList a).any fun sd? =>
      match sd? with
      | none => false
      | some sd =>
        sd.affiliationGroup.any fun g =>
          g.summaries.any fun s =>
            s.any fun v =>
              match v with
              | SumVal.dict true (some p) => trusted.contains p
              | _ => false

/-!
## Concurrent profile fetcher (`orcid_service.get_all_profiles_concurrently`)

`fetch_single_profile` returns the parsed document of a 200 response and `{}`
(falsy) when `safe_get` fails; a raised exception inside a worker is caught
and treated as a missing entry.  All three failure modes are one oracle
outcome: `profileOf id = none`.  The result map contains an id exactly when
its fetch produced a truthy document.
-/

/-- `get_all_profiles_concurrently`: empty when the member URL or token is
missing, else the map of successful fetches keyed by orcid id. -/
def get_all_profiles_concurrently (up : Upstream) (orcidIds : List String) :
    List (String × Profile) :=
  if !truthy up.memberUrl || !truthy up.token then []
  else
    orcidIds.foldl
      (fun m oid =>
        match up.profileOf oid with
        | some p => upsert m oid p
        | none => m)
      []

/-!
## Database model and healer (`cache_service.ensure_and_heal_grid_for_ror`)
-/

/-- One row of the `User` table, restricted to the fields the core reads. -/
structure UserRow where
  rorId : Option String
  gridId : Option String
  amClientId : Option String
deriving DecidableEq, Repr

/-- One row of the `work_cache` table, mirroring the `WorkCache(...)`
constructor call in `build_works_cache_for_ror`. -/
structure WorkRow where
  rorId : String
  orcid : String
  title : Option String
  typ : Option String
  putCode : Option Nat
  journalTitle : Option String
  pubYear : Option String
  pubMonth : Option String
  pubDay : Option String
  doi : Option String
  issn : Option String
  otherExternalIds : Option String
  source : Option String
  url : Option String
  visibility : Option String
deriving DecidableEq, Repr

/-- One row of the `funding_cache` table, mirroring the `FundingCache(...)`
constructor call in `build_fundings_cache_for_ror`. -/
structure FundingRow where
  rorId : String
  orcid : String
  title : Option String
  typ : Option String
  orgName : Option String
  city : Option String
  country : Option String
  startY : Option String
  startM : Option String
  startD : Option String
  endY : Option String
  endM : Option String
  endD : Option String
  grantNumber : Option String
  currency : Option String
  amount : Option String
  source : Option String
  visibility : Option String
  url : Option String
deriving DecidableEq, Repr

/-- The local database state the rebuild flows read and write. -/
structure Db where
  users : List UserRow
  works : List WorkRow
  fundings : List FundingRow
  statuses : List StatusRow
deriving Repr

/-- The first user of this institution already carrying a truthy GRID id
(`User.grid_id.isnot(None), User.grid_id != ""`), if any. -/
def localGrid (users : List UserRow) (ror : String) : Option String :=
  match users.find? (fun u => u.rorId == some ror && truthy u.gridId) with
  | some u => u.gridId
  | none => none

/-- The back-fill of a resolved GRID id into every user of the institution
still missing one (`or_(User.grid_id.is_(None), User.grid_id == "")`). -/
def healFill (users : List UserRow) (ror : String) (g : Option String) : List UserRow :=
  users.map fun u => if u.rorId == some ror && !truthy u.gridId then { u with gridId := g } else u

/-- The GRID id the healer resolves: the locally recorded one when truthy,
else the ROR API lookup result. -/
def healResolved (db : Db) (up : Upstream) (ror : String) : Option String :=
  let localG := localGrid db.users ror
  if truthy localG then localG else fetch_grid_from_ror up.gridLookup

/-- `ensure_and_heal_grid_for_ror`: reuse a locally recorded GRID id, else
fetch one from the ROR API; when a truthy id was resolved, back-fill it into
every user of the institution still missing one (kept only if that commit
succeeds).  Returns the resolved id alongside the updated database. -/
def ensure_and_heal_grid_for_ror (db : Db) (up : Upstream) (ror : String) :
    Option String × Db :=
  if ror.isEmpty then (none, db)
  else
    let g := healResolved db up ror
    if truthy g then
      if (db.users.any fun u => u.rorId == some ror && !truthy u.gridId) && up.healCommitOk then
        (g, { db with users := healFill db.users ror g })
      else (g, db)
    else (g, db)

/-!
## Works (publications) cache builder (`cache_service.build_works_cache_for_ror`)
-/

/-- The DOI / ISSN / other-ids accumulation over the `external-id` list:
the first truthy-free DOI and ISSN slots are written even by falsy values,
every other entry with a truthy value is collected as `type:value`. -/
def extractIdsStep (acc : Option String × Option String × List String) (eid : ExternalId) :
    Option String × Option String × List String :=
  let t := strLower (eid.typ.getD "")
  let v := eid.val
  if t = "doi" && !truthy acc.1 then (v, acc.2.1, acc.2.2)
  else if t = "issn" && !truthy acc.2.1 then (acc.1, v, acc.2.2)
  else if truthy v then (acc.1, acc.2.1, acc.2.2 ++ [t ++ ":" ++ v.getD ""])
  else acc

/-- The `(doi, issn, others)` triple extracted from a work's external ids. -/
def extractIds (eids : List ExternalId) : Option String × Option String × List String :=
  eids.foldl extractIdsStep (none, none, [])

/-- The `WorkCache(...)` row built for one work summary. -/
def mkWorkRow (ror oid : String) (w : WorkSummary) : WorkRow :=
  let ids := extractIds w.externalIds
  { rorId := ror
    orcid := oid
    title := w.titleValue
    typ := w.typ
    putCode := w.putCode
    journalTitle := w.journalTitle
    pubYear := w.pubYear
    pubMonth := w.pubMonth
    pubDay := w.pubDay
    doi := ids.1
    issn := ids.2.1
    otherExternalIds := if ids.2.2.isEmpty then none else some (String.intercalate "; " ids.2.2)
    source := w.sourceName
    url := w.url
    visibility := w.visibility }

/-- The work groups of a profile
(`(profile.get('activities-summary') or {}).get('works') or {}`). -/
def worksGroups (p : Profile) : List WorkGroup :=
  match p.activities with
  | none => []
  | some a =>
    match a.works with
    | none => []
    | some w => w.group

/-- All work rows extracted from one profile, in buffer order. -/
def extractWorkRows (ror oid : String) (p : Profile) : List WorkRow :=
  (worksGroups p).flatMap fun g => g.workSummary.map (mkWorkRow ror oid)

/-- The in-flight state of the works builder's processing loop: the two
tables, the two in-memory buffers, the running total, and the index of the
next bulk flush (consumed by the `flushOk` oracle). -/
structure WState where
  works : List WorkRow
  statuses : List StatusRow
  wbuf : List WorkRow
  sbuf : List StatusRow
  total : Nat
  flushIdx : Nat
deriving Repr

/-- `_flush_bulk` on the works buffer: nothing happens on an empty buffer; a
successful commit appends the buffer to the table and clears it; a failed
commit rolls back, KEEPING the buffer (the Python `bulk.clear()` is only
reached after a successful commit). -/
def flushWorksBuf (ok : Nat → Bool) (st : WState) : WState :=
  if st.wbuf.isEmpty then st
  else if ok st.flushIdx then
    { st with works := st.works ++ st.wbuf, wbuf := [], flushIdx := st.flushIdx + 1 }
  else { st with flushIdx := st.flushIdx + 1 }

/-- `_flush_bulk` on the status buffer. -/
def flushStatusBuf (ok : Nat → Bool) (st : WState) : WState :=
  if st.sbuf.isEmpty then st
  else if ok st.flushIdx then
    { st with statuses := st.statuses ++ st.sbuf, sbuf := [], flushIdx := st.flushIdx + 1 }
  else { st with flushIdx := st.flushIdx + 1 }

/-- The threshold flush of the works buffer (`if len(works_buffer) >= 2000`). -/
def condFlushWorks (ok : Nat → Bool) (st : WState) : WState :=
  if 2000 ≤ st.wbuf.length then flushWorksBuf ok st else st

/-- The threshold flush of the status buffer (`if len(status_buffer) >= 1000`). -/
def condFlushStatus (ok : Nat → Bool) (st : WState) : WState :=
  if 1000 ≤ st.sbuf.length then flushStatusBuf ok st else st

/-- Processing of one `(orcid_id, profile)` entry of the fetched map: buffer
the status row and the extracted work rows, count them, then flush each
buffer when it reaches its threshold (2000 works, 1000 statuses). -/
def processWorksProfile (up : Upstream) (ror : String) (trusted : List String)
    (st : WState) (entry : String × Profile) : WState :=
  condFlushStatus up.flushOk (condFlushWorks up.flushOk
    { st with
      sbuf := st.sbuf ++ [extract_status_from_profile entry.2 ror entry.1 trusted]
      wbuf := st.wbuf ++ extractWorkRows ror entry.1 entry.2
      total := st.total + (extractWorkRows ror entry.1 entry.2).length })

/-- The trusted client ids of the works rebuild: the system client id when
configured, plus the institution's affiliation-manager client id when a user
of the institution carries a truthy one. -/
def trustedIdsFor (up : Upstream) (users : List UserRow) (ror : String) : List String :=
  let base := if truthy up.systemClientId then [up.systemClientId.getD ""] else []
  match users.find? (fun u => u.rorId == some ror && u.amClientId.isSome) with
  | some u => if truthy u.amClientId then base ++ [u.amClientId.getD ""] else base
  | none => base

/-- The truthy `orcid-id` values of the discovered researchers, in order. -/
def orcidIdsOf (researchers : List SearchRec) : List String :=
  researchers.filterMap fun r => if truthy r.orcidId then some (r.orcidId.getD "") else none

/-- `build_works_cache_for_ror`: heal the GRID id, discover the population,
return 0 when it is empty; otherwise purge the institution's work and status
rows, fetch all profiles, buffer and flush the extracted rows, and return the
running total. -/
def build_works_cache_for_ror (db : Db) (up : Upstream) (ror : String) : Nat × Db :=
  let healed := ensure_and_heal_grid_for_ror db up ror
  let db1 := healed.2
  let researchers := list_orcids_for_institution up (some ror) healed.1 1000
  if researchers.isEmpty then (0, db1)
  else
    let trusted := trustedIdsFor up db1.users ror
    let ids := orcidIdsOf researchers
    let db2 := { db1 with
      works := db1.works.filter fun w => !(w.rorId == ror)
      statuses := db1.statuses.filter fun s => !(s.rorId == ror) }
    let pm := get_all_profiles_concurrently up ids
    let st0 : WState := ⟨db2.works, db2.statuses, [], [], 0, 0⟩
    let stL := pm.foldl (processWorksProfile up ror trusted) st0
    let stF := flushStatusBuf up.flushOk (flushWorksBuf up.flushOk stL)
    (stF.total, { db2 with works := stF.works, statuses := stF.statuses })

/-!
## Fundings (grants) cache builder (`cache_service.build_fundings_cache_for_ror`)
-/

/-- The grant number: the value of the first external id whose lowered type
contains the substring `grant` (its value is taken even when absent). -/
def grantNumberOf (eids : List ExternalId) : Option String :=
  match eids.find? (fun eid => strHasSub (strLower (eid.typ.getD "")) "grant") with
  | some eid => eid.val
  | none => none

/-- The `FundingCache(...)` row built for one funding summary. -/
def mkFundingRow (ror oid : String) (f : FundingSummary) : FundingRow :=
  { rorId := ror
    orcid := oid
    title := f.titleValue
    typ := f.typ
    orgName := f.orgName
    city := f.city
    country := f.country
    startY := f.startY
    startM := f.startM
    startD := f.startD
    endY := f.endY
    endM := f.endM
    endD := f.endD
    grantNumber := grantNumberOf f.externalIds
    currency := f.currency
    amount := f.amount
    source := f.sourceName
    visibility := f.visibility
    url := f.url }

/-- The funding groups of a profile. -/
def fundingsGroups (p : Profile) : List FundingGroup :=
  match p.activities with
  | none => []
  | some a =>
    match a.fundings with
    | none => []
    | some f => f.group

/-- All funding rows extracted from one profile, in buffer order. -/
def extractFundingRows (ror oid : String) (p : Profile) : List FundingRow :=
  (fundingsGroups p).flatMap fun g => g.fundingSummary.map (mkFundingRow ror oid)

/-- The in-flight state of the fundings builder. -/
structure FState where
  fundings : List FundingRow
  fbuf : List FundingRow
  total : Nat
  flushIdx : Nat
deriving Repr

/-- `_flush_bulk` on the funding buffer. -/
def flushFundingBuf (ok : Nat → Bool) (st : FState) : FState :=
  if st.fbuf.isEmpty then st
  else if ok st.flushIdx then
    { st with fundings := st.fundings ++ st.fbuf, fbuf := [], flushIdx := st.flushIdx + 1 }
  else { st with flushIdx := st.flushIdx + 1 }

/-- The threshold flush of the funding buffer. -/
def condFlushFunding (ok : Nat → Bool) (st : FState) : FState :=
  if 2000 ≤ st.fbuf.length then flushFundingBuf ok st else st

/-- Processing of one fetched profile in the fundings builder. -/
def processFundingProfile (up : Upstream) (ror : String) (st : FState)
    (entry : String × Profile) : FState :=
  condFlushFunding up.flushOk
    { st with
      fbuf := st.fbuf ++ extractFundingRows ror entry.1 entry.2
      total := st.total + (extractFundingRows ror entry.1 entry.2).length }

/-- `build_fundings_cache_for_ror`. -/
def build_fundings_cache_for_ror (db : Db) (up : Upstream) (ror : String) : Nat × Db :=
  let healed := ensure_and_heal_grid_for_ror db up ror
  let db1 := healed.2
  let researchers := list_orcids_for_institution up (some ror) healed.1 1000
  if researchers.isEmpty then (0, db1)
  else
    let ids := orcidIdsOf researchers
    let db2 := { db1 with fundings := db1.fundings.filter fun f => !(f.rorId == ror) }
    let pm := get_all_profiles_concurrently up ids
    let st0 : FState := ⟨db2.fundings, [], 0, 0⟩
    let stL := pm.foldl (processFundingProfile up ror) st0
    let stF := flushFundingBuf up.flushOk stL
    (stF.total, { db2 with fundings := stF.fundings })

/-!
## Extraction views

The profiles a rebuild processes and the raw row totals it extracts from
them, written as functions of the same upstream oracle.  These mirror the
discovery and fetch phases of the builders and are used to characterise the
returned counts.
-/

/-- The `(orcid_id, profile)` entries the works rebuild processes. -/
def works_profiles_view (db : Db) (up : Upstream) (ror : String) : List (String × Profile) :=
  let healed := ensure_and_heal_grid_for_ror db up ror
  let researchers := list_orcids_for_institution up (some ror) healed.1 1000
  if researchers.isEmpty then []
  else get_all_profiles_concurrently up (orcidIdsOf researchers)

/-- The number of work rows extracted and buffered in memory over one works
rebuild: the raw in-memory total, before any flush accounting. -/
def works_extraction_total (db : Db) (up : Upstream) (ror : String) : Nat :=
  ((works_profiles_view db up ror).map fun e => (extractWorkRows ror e.1 e.2).length).sum

/-- All work rows extracted over one works rebuild, in buffer order. -/
def works_extraction_rows (db : Db) (up : Upstream) (ror : String) : List WorkRow :=
  (works_profiles_view db up ror).flatMap fun e => extractWorkRows ror e.1 e.2

/-- The number of funding rows extracted and buffered in memory over one
fundings rebuild. -/
def fundings_extraction_total (db : Db) (up : Upstream) (ror : String) : Nat :=
  ((works_profiles_view db up ror).map fun e => (extractFundingRows ror e.1 e.2).length).sum

/-- Replace the flush-commit oracle of an upstream world. -/
def withFlushOk (up : Upstream) (f : Nat → Bool) : Upstream :=
  { up with flushOk := f }

/-- The work rows of one institution currently in the table. -/
def worksFor (db : Db) (ror : String) : List WorkRow :=
  db.works.filter fun w => w.rorId == ror

/-!
## Run-log writers (`commands._log_execution_run`, `cache_control._log_run_web`)

A run-log row records one rebuild invocation.  The `target` field stands for
the model class the row is written to (`WorkCacheRun` or `FundingCacheRun`);
timestamps are abstract instants; `commitOk` is the outcome of the writer's
own commit (a failed commit rolls the row back).
-/

/-- One row of the `WorkCacheRun` / `FundingCacheRun` audit tables. -/
structure RunLogRow where
  target : String
  rorId : String
  status : String
  rowsCount : Nat
  error : Option String
  startedAt : Nat
  finishedAt : Nat
deriving DecidableEq, Repr

/-- `_log_execution_run` (CLI): skips a falsy ror id, else appends one row
with `started_at = finished_at = utcnow()`; a failed commit persists nothing. -/
def log_execution_run (target ror status : String) (count : Nat) (err : Option String)
    (now : Nat) (commitOk : Bool) (log : List RunLogRow) : List RunLogRow :=
  if ror.isEmpty then log
  else if commitOk then log ++ [⟨target, ror, status, count, err, now, now⟩]
  else log

/-- One target's sync step of the CLI `rebuild-caches` loop: the build either
returns a count (logged as `success`) or raises with a message (logged as
`failed` with count 0 and the exception text). -/
def cli_sync_step (target ror : String) (outcome : Except String Nat) (now : Nat)
    (commitOk : Bool) (log : List RunLogRow) : List RunLogRow :=
  match outcome with
  | Except.ok n => log_execution_run target ror "success" n none now commitOk log
  | Except.error e => log_execution_run target ror "failed" 0 (some e) now commitOk log

/-- `_log_run_web` (web): appends one row with equal timestamps; a failed
commit persists nothing. -/
def log_run_web (target ror status : String) (count : Nat) (err : Option String)
    (now : Nat) (commitOk : Bool) (log : List RunLogRow) : List RunLogRow :=
  if commitOk then log ++ [⟨target, ror, status, count, err, now, now⟩]
  else log

/-- The execution section of the web `rebuild_cache` route: a valid target's
build either returns a count (one `success` row) or raises (one `failed` row
with count 0, written to the model matching the target); an invalid target
writes nothing. -/
def rebuild_cache_route (target ror : String) (outcome : Except String Nat) (now : Nat)
    (commitOk : Bool) (log : List RunLogRow) : List RunLogRow :=
  if target = "works" then
    match outcome with
    | Except.ok n => log_run_web "works" ror "success" n none now commitOk log
    | Except.error e => log_run_web "works" ror "failed" 0 (some e) now commitOk log
  else if target = "fundings" then
    match outcome with
    | Except.ok n => log_run_web "fundings" ror "success" n none now commitOk log
    | Except.error e => log_run_web "fundings" ror "failed" 0 (some e) now commitOk log
  else log

/-!
## Concrete inputs

Small concrete worlds used to instantiate the theorems below on executable
runs.
-/

/-- The dedup keys of a record list, with falsy keys dropped. -/
def searchKeysOf (l : List SearchRec) : List String :=
  (l.map searchKey).filter fun k => k ≠ ""

/-- The last record of a list carrying the given dedup key. -/
def lastWithKey (l : List SearchRec) (k : String) : Option SearchRec :=
  (l.filter fun r => searchKey r = k).getLast?

/-- Response sequence 429, 429, then 200. -/
def resps429 : Nat → HttpAttempt :=
  fun a => if a = 1 then HttpAttempt.resp 429 else if a = 2 then HttpAttempt.resp 429 else HttpAttempt.resp 200

/-- Responses that are always 404. -/
def resps404 : Nat → HttpAttempt := fun _ => HttpAttempt.resp 404

/-- Responses that are always 401. -/
def resps401 : Nat → HttpAttempt := fun _ => HttpAttempt.resp 401

/-- Responses that are always 403. -/
def resps403 : Nat → HttpAttempt := fun _ => HttpAttempt.resp 403

/-- An empty database. -/
def dbEmpty : Db := ⟨[], [], [], []⟩

/-- A search record with id `A` and no payload. -/
def recA : SearchRec := ⟨some "A", []⟩

/-- A search record with id `A` and a distinguishing payload. -/
def recA2 : SearchRec := ⟨some "A", [("n", "2")]⟩

/-- A work summary with only a title. -/
def wsA : WorkSummary := ⟨some "T", none, none, none, none, none, none, [], none, none, none⟩

/-- A funding summary with only a title. -/
def fsA : FundingSummary :=
  ⟨some "F", none, none, none, none, none, none, none, none, none, none, [], none, none, none, none, none⟩

/-- A profile with one work and one funding and no affiliation sections. -/
def profA : Profile :=
  ⟨some ⟨none, none, none, none, none, none, none, some ⟨[⟨[wsA]⟩]⟩, some ⟨[⟨[fsA]⟩]⟩⟩⟩

/-- A world where every page request fails: discovery returns nothing. -/
def upAllFail : Upstream :=
  { searchUrl := some "s", memberUrl := some "m", token := some "t", systemClientId := none
    gridLookup := RorOutcome.notFound, pages := fun _ _ => none, profileOf := fun _ => none
    pageFuel := 3, flushOk := fun _ => true, healCommitOk := true }

/-- A world discovering the single researcher `A`, whose profile has one work
and one funding; all commits succeed. -/
def upOne : Upstream :=
  { searchUrl := some "s", memberUrl := some "m", token := some "t", systemClientId := none
    gridLookup := RorOutcome.notFound
    pages := fun _ start => if start = 0 then some [recA] else none
    profileOf := fun oid => if oid = "A" then some profA else none
    pageFuel := 3, flushOk := fun _ => true, healCommitOk := true }

/-- The same world with every bulk flush commit failing. -/
def upOneFlushFail : Upstream := withFlushOk upOne fun _ => false

/-- A world whose single page holds the id `A` twice, the second record with a
different payload, followed by a second page that fails. -/
def upDup : Upstream :=
  { upOne with pages := fun _ start => if start = 0 then some [recA, ⟨none, []⟩, recA2] else none }

/-- An activities tree whose single summary has two source-carrying dict
values: the first with an untrusted path, the second with a trusted one. -/
def actTwoSources : ActivitiesSummary :=
  ⟨some ⟨[⟨[[SumVal.dict true (some "bad"), SumVal.dict true (some "good")]]⟩]⟩,
   none, none, none, none, none, none, none, none⟩

/-- An activities tree whose single summary's source has the empty string as
its client-id path. -/
def actEmptyPath : ActivitiesSummary :=
  ⟨some ⟨[⟨[[SumVal.dict true (some "")]]⟩]⟩,
   none, none, none, none, none, none, none, none⟩

/-- An activities tree with one employment summary managed by `cid`. -/
def actManagedBy (cid : String) : ActivitiesSummary :=
  ⟨some ⟨[⟨[[SumVal.dict true (some cid)]]⟩]⟩,
   none, none, none, none, none, none, none, none⟩

/-- A pre-populated database for one institution. -/
def dbPre : Db :=
  ⟨[], [⟨"r", "A", none, none, none, none, none, none, none, none, none, none, none, none, none⟩],
   [⟨"r", "A", none, none, none, none, none, none, none, none, none, none, none, none, none, none, none, none, none⟩],
   [⟨"r", "A", false⟩]⟩

/-!
## Generic lemmas
-/

/-- `truthy (some s)` holds exactly for non-empty strings. -/
theorem truthy_some_iff (s : String) : truthy (some s) = true ↔ s ≠ "" := by
  have hdef : truthy (some s) = !s.isEmpty := rfl
  rw [hdef]
  constructor
  · intro h hs
    subst hs
    rw [(String.isEmpty_iff "").mpr rfl] at h
    simp at h
  · intro h
    rw [Bool.not_eq_true']
    rw [Bool.eq_false_iff]
    intro hc
    exact h ((String.isEmpty_iff s).mp hc)

/-- `optOr a none` is `a`. -/
theorem optOr_none {α : Type} (a : Option α) : optOr a none = a := by
  cases a <;> rfl

/-- `getLast?` of a cons, through `optOr`. -/
theorem getLast?_cons_optOr {α : Type} : ∀ (l : List α) (a : α),
    (a :: l).getLast? = optOr l.getLast? (some a)
  | [], _ => rfl
  | b :: t, a => by
    rw [List.getLast?_cons_cons]
    have h := getLast?_cons_optOr t b
    rw [h]
    cases t.getLast? <;> rfl

/-- `find?` over a cons as a conditional. -/
theorem find?_cons_eq {α : Type} (p : α → Bool) (a : α) (l : List α) :
    List.find? p (a :: l) = if p a then some a else List.find? p l := by
  by_cases h : p a = true
  · simp [List.find?, h]
  · rw [Bool.not_eq_true] at h
    simp [List.find?, h]

/-- The keys of a cons. -/
theorem keysOf_cons {α : Type} (p : String × α) (t : List (String × α)) :
    keysOf (p :: t) = p.1 :: keysOf t := rfl

/-- Lookup over a cons as a conditional. -/
theorem lookupKey_cons {α : Type} (q : String × α) (t : List (String × α)) (k : String) :
    lookupKey (q :: t) k = if q.1 = k then some q.2 else lookupKey t k := by
  by_cases h : q.1 = k
  · simp [lookupKey, find?_cons_eq, h]
  · have hb : ¬(q.1 == k) = true := by simp [h]
    simp [lookupKey, find?_cons_eq, h, hb]

/-- The keys of an upserted map: unchanged when the key is present, extended
by the key otherwise. -/
theorem keysOf_upsert {α : Type} : ∀ (m : List (String × α)) (k : String) (v : α),
    keysOf (upsert m k v) = if k ∈ keysOf m then keysOf m else keysOf m ++ [k]
  | [], k, v => by simp [upsert, keysOf]
  | p :: t, k, v => by
    by_cases hp : p.1 = k
    · subst hp
      simp [upsert, keysOf_cons, List.mem_cons]
    · have h := keysOf_upsert t k v
      have hne : k ≠ p.1 := Ne.symm hp
      by_cases hm : k ∈ keysOf t
      · simp [upsert, hp, keysOf_cons, h, hm, List.mem_cons, hne]
      · simp [upsert, hp, keysOf_cons, h, hm, List.mem_cons, hne]

/-- Membership in the keys of an upserted map. -/
theorem mem_keysOf_upsert {α : Type} (m : List (String × α)) (k k' : String) (v : α) :
    k' ∈ keysOf (upsert m k v) ↔ k' ∈ keysOf m ∨ k' = k := by
  rw [keysOf_upsert]
  by_cases hm : k ∈ keysOf m
  · simp [hm]
    intro h
    subst h
    exact hm
  · simp [hm, or_comm]

/-- Upserting preserves distinctness of the keys. -/
theorem nodup_keysOf_upsert {α : Type} (m : List (String × α)) (k : String) (v : α)
    (h : (keysOf m).Nodup) : (keysOf (upsert m k v)).Nodup := by
  rw [keysOf_upsert]
  by_cases hm : k ∈ keysOf m
  · simp [hm, h]
  · simp [hm]
    rw [List.nodup_append]
    refine ⟨h, List.nodup_singleton k, ?_⟩
    intro a ha hb
    simp at hb
    subst hb
    exact hm ha

/-- A pair of an upserted map is an old pair or the new one. -/
theorem mem_upsert {α : Type} : ∀ (m : List (String × α)) (k : String) (v : α)
    (p : String × α), p ∈ upsert m k v → p ∈ m ∨ p = (k, v)
  | [], k, v, p => by
    intro h
    simp [upsert] at h
    right
    exact h
  | q :: t, k, v, p => by
    intro h
    by_cases hq : q.1 = k
    · simp [upsert, hq] at h
      rcases h with h | h
      · right
        rw [h]
      · left
        exact List.mem_cons_of_mem q h
    · simp [upsert, hq] at h
      rcases h with h | h
      · left
        rw [h]
        exact List.mem_cons_self q t
      · rcases mem_upsert t k v p h with h2 | h2
        · left
          exact List.mem_cons_of_mem q h2
        · right
          exact h2

/-- Lookup in an upserted map. -/
theorem lookupKey_upsert {α : Type} : ∀ (m : List (String × α)) (k : String) (v : α)
    (k' : String), lookupKey (upsert m k v) k' = if k' = k then some v else lookupKey m k'
  | [], k, v, k' => by
    by_cases h : k' = k
    · subst h
      simp [upsert, lookupKey_cons]
    · have h2 : ¬k = k' := fun hc => h hc.symm
      have hb : (k == k') = false := by
        simp
        exact h2
      simp [upsert, lookupKey_cons, h2, h, lookupKey, List.find?, hb]
  | q :: t, k, v, k' => by
    have ih := lookupKey_upsert t k v k'
    by_cases hq : q.1 = k
    · subst hq
      by_cases h : k' = q.1
      · simp [upsert, lookupKey_cons, h]
      · simp [upsert, lookupKey_cons, h, Ne.symm h]
    · by_cases h : k' = k
      · subst h
        simp [upsert, hq, lookupKey_cons, ih, fun hc => hq hc]
      · by_cases hq2 : q.1 = k'
        · simp [upsert, hq, lookupKey_cons, hq2, h]
        · simp [upsert, hq, lookupKey_cons, hq2, h, ih]

/-- A key is in the key view exactly when its lookup succeeds. -/
theorem lookupKey_isSome_iff {α : Type} : ∀ (m : List (String × α)) (k : String),
    (lookupKey m k).isSome = true ↔ k ∈ keysOf m
  | [], k => by simp [lookupKey, keysOf, List.find?]
  | q :: t, k => by
    have ih := lookupKey_isSome_iff t k
    by_cases hq : q.1 = k
    · simp [lookupKey_cons, hq, keysOf_cons]
    · simp [lookupKey_cons, hq, keysOf_cons, ih, Ne.symm hq]

/-!
## Resilient fetcher lemmas and claim C2
-/

/-- A run over all-transient outcomes exhausts its fuel, returns `none`, and
sleeps `0.5 * attempt` seconds before every non-final retry. -/
theorem safeGetGo_transient (resps : Nat → HttpAttempt) (retries : Nat)
    (h : ∀ a, isTransient (resps a) = true) :
    ∀ fuel attempt, safeGetGo resps retries fuel attempt =
      ⟨none, fuel, transientSleepsAux retries fuel attempt⟩ := by
  intro fuel
  induction fuel with
  | zero =>
    intro attempt
    rfl
  | succ n ih =>
    intro attempt
    have ht := h attempt
    cases hr : resps attempt with
    | netErr =>
      simp [safeGetGo, hr, ih, transientSleepsAux]
    | resp s =>
      rw [hr] at ht
      simp only [isTransient, Bool.not_eq_true', Bool.or_eq_false_iff] at ht
      obtain ⟨⟨⟨⟨h200, h429⟩, h404⟩, h401⟩, h403⟩ := ht
      simp only [decide_eq_false_iff_not] at h200 h429 h404 h401 h403
      simp [safeGetGo, hr, h200, h429, h404, h401, h403, ih, transientSleepsAux]

/-- C2: the status policy of the resilient fetcher.  Given [429, 429, 200] it
makes three attempts, sleeping 2 s then 4 s (20 and 40 tenths), and returns
the 200 response; a 404 returns at once with no retry and no sleep; a 401 or
403 returns null at once; any all-transient sequence (other statuses or
network errors) is retried with 0.5 s-times-attempt sleeps until the retry
budget (default 3) is exhausted, and returns null; for the default budget the
transient sleeps are 0.5 s then 1 s. -/
theorem safe_get_status_policy :
    safe_get resps429 3 = ⟨some 200, 3, [20, 40]⟩ ∧
    safe_get resps404 3 = ⟨some 404, 1, []⟩ ∧
    safe_get resps401 3 = ⟨none, 1, []⟩ ∧
    safe_get resps403 3 = ⟨none, 1, []⟩ ∧
    (∀ (resps : Nat → HttpAttempt) (retries : Nat), (∀ a, isTransient (resps a) = true) →
      safe_get resps retries = ⟨none, retries, transientSleepsAux retries retries 1⟩) ∧
    transientSleepsAux 3 3 1 = [5, 10] := by
  refine ⟨by decide, by decide, by decide, by decide, ?_, by decide⟩
  intro resps retries h
  exact safeGetGo_transient resps retries h retries 1

/-- Witness for C2: two network-error attempts with budget 2 return null after
one 0.5 s sleep. -/
theorem safe_get_status_policy_witness :
    safe_get (fun _ => HttpAttempt.netErr) 2 = ⟨none, 2, [5]⟩ := by
  have h := safe_get_status_policy.2.2.2.2.1 (fun _ => HttpAttempt.netErr) 2 (fun _ => rfl)
  rw [h]
  decide

/-!
## Registry search lemmas and claim C3
-/

/-- The pagination loop is the fold of the page step over the records it
consumes. -/
theorem searchPaginate_eq_fold (up : Upstream) (q : String) (rows : Nat) :
    ∀ fuel start acc, searchPaginate up q rows fuel start acc =
      (consumedChunks up q rows fuel start).foldl searchPageStep acc := by
  intro fuel
  induction fuel with
  | zero =>
    intro start acc
    rfl
  | succ n ih =>
    intro start acc
    simp only [searchPaginate, consumedChunks]
    cases up.pages q start with
    | none => simp
    | some chunk =>
      by_cases he : chunk.isEmpty
      · simp [he]
      · by_cases hl : chunk.length < rows
        · simp [he, hl]
        · simp [he, hl, ih, List.foldl_append]

/-- Every pair of the fold is keyed by the dedup key of its record. -/
theorem pairs_searchFold : ∀ (l : List SearchRec) (m : List (String × SearchRec)),
    (∀ p ∈ m, searchKey p.2 = p.1) → ∀ p ∈ l.foldl searchPageStep m, searchKey p.2 = p.1
  | [], m => by
    intro h p hp
    exact h p hp
  | r :: t, m => by
    intro h p hp
    simp only [List.foldl_cons] at hp
    by_cases hk : searchKey r = ""
    · simp only [searchPageStep, hk, if_pos rfl] at hp
      exact pairs_searchFold t m h p hp
    · simp only [searchPageStep, if_neg hk] at hp
      refine pairs_searchFold t (upsert m (searchKey r) r) ?_ p hp
      intro p2 hp2
      rcases mem_upsert m (searchKey r) r p2 hp2 with h2 | h2
      · exact h p2 h2
      · rw [h2]

/-- The fold preserves distinctness of the keys. -/
theorem nodup_keys_searchFold : ∀ (l : List SearchRec) (m : List (String × SearchRec)),
    (keysOf m).Nodup → (keysOf (l.foldl searchPageStep m)).Nodup
  | [], m => fun h => h
  | r :: t, m => by
    intro h
    simp only [List.foldl_cons]
    by_cases hk : searchKey r = ""
    · simp only [searchPageStep, hk, if_pos rfl]
      exact nodup_keys_searchFold t m h
    · simp only [searchPageStep, if_neg hk]
      exact nodup_keys_searchFold t _ (nodup_keysOf_upsert m (searchKey r) r h)

/-- The page step ignores a record with a falsy key. -/
theorem searchPageStep_skip (m : List (String × SearchRec)) (r : SearchRec)
    (hk : searchKey r = "") : searchPageStep m r = m := by
  simp [searchPageStep, hk]

/-- The page step upserts a record with a truthy key. -/
theorem searchPageStep_up (m : List (String × SearchRec)) (r : SearchRec)
    (hk : ¬searchKey r = "") : searchPageStep m r = upsert m (searchKey r) r := by
  simp [searchPageStep, hk]

/-- The key order of the fold: first-occurrence order of the consumed records,
continuing the accumulated keys. -/
theorem keys_searchFold : ∀ (l : List SearchRec) (m : List (String × SearchRec)),
    keysOf (l.foldl searchPageStep m) = firstOccAux (keysOf m) (searchKeysOf l)
  | [], m => by simp [searchKeysOf, firstOccAux]
  | r :: t, m => by
    by_cases hk : searchKey r = ""
    · simp only [List.foldl_cons, searchPageStep_skip m r hk]
      rw [keys_searchFold t m]
      simp [searchKeysOf, hk]
    · simp only [List.foldl_cons, searchPageStep_up m r hk]
      rw [keys_searchFold t (upsert m (searchKey r) r)]
      rw [keysOf_upsert]
      have hcons : searchKeysOf (r :: t) = searchKey r :: searchKeysOf t := by
        simp [searchKeysOf, hk]
      rw [hcons]
      simp [firstOccAux]

/-- `lastWithKey` over a cons. -/
theorem lastWithKey_cons_eq (r : SearchRec) (t : List SearchRec) (k : String) :
    lastWithKey (r :: t) k =
      if searchKey r = k then optOr (lastWithKey t k) (some r) else lastWithKey t k := by
  unfold lastWithKey
  rw [List.filter_cons]
  by_cases hr : searchKey r = k
  · rw [if_pos (by simp [hr]), if_pos hr, getLast?_cons_optOr]
  · rw [if_neg (by simp [hr]), if_neg hr]

/-- Lookup after the fold: the last consumed record with the key wins,
falling back to the accumulated map. -/
theorem lookup_searchFold : ∀ (l : List SearchRec) (m : List (String × SearchRec)) (k : String),
    k ≠ "" → lookupKey (l.foldl searchPageStep m) k = optOr (lastWithKey l k) (lookupKey m k)
  | [], m, k => by
    intro _
    simp [lastWithKey, optOr]
  | r :: t, m, k => by
    intro hk
    simp only [List.foldl_cons]
    rw [lastWithKey_cons_eq]
    by_cases hr : searchKey r = k
    · rw [if_pos hr]
      have hr0 : ¬searchKey r = "" := by
        rw [hr]
        exact hk
      rw [searchPageStep_up m r hr0, hr]
      rw [lookup_searchFold t (upsert m k r) k hk, lookupKey_upsert, if_pos rfl]
      cases lastWithKey t k <;> rfl
    · rw [if_neg hr]
      by_cases hr0 : searchKey r = ""
      · rw [searchPageStep_skip m r hr0]
        exact lookup_searchFold t m k hk
      · rw [searchPageStep_up m r hr0]
        rw [lookup_searchFold t (upsert m (searchKey r) r) k hk, lookupKey_upsert]
        have hneq : ¬k = searchKey r := fun hc => hr (Eq.symm hc)
        rw [if_neg hneq]

/-- C3: the merged population of the paginated search is deduplicated by
identifier: the output records' dedup keys are exactly the map's keys and are
pairwise distinct; the keys stand in first-occurrence order of the consumed
records; and the record stored under a key is the LAST consumed record with
that key (later duplicates overwrite earlier ones). -/
theorem search_population_dedup (up : Upstream) (ror? grid? : Option String) :
    ((list_orcids_for_institution up ror? grid? 1000).map searchKey).Nodup ∧
    (list_orcids_for_institution up ror? grid? 1000).map searchKey =
      keysOf (searchAssocFor up ror? grid? 1000) ∧
    keysOf (searchAssocFor up ror? grid? 1000) =
      firstOccAux [] (searchKeysOf (consumedFor up ror? grid? 1000)) ∧
    (∀ k, k ≠ "" → lookupKey (searchAssocFor up ror? grid? 1000) k =
      lastWithKey (consumedFor up ror? grid? 1000) k) := by
  have hpairs : ∀ p ∈ searchAssocFor up ror? grid? 1000, searchKey p.2 = p.1 := by
    unfold searchAssocFor
    by_cases hs : !truthy up.searchUrl
    · simp [hs]
    · cases hq : buildQuery ror? grid? with
      | none => simp [hs, hq]
      | some q =>
        simp only [hs, hq, Bool.false_eq_true, if_false]
        rw [searchPaginate_eq_fold]
        exact pairs_searchFold _ [] (by simp)
  have hkeys : (list_orcids_for_institution up ror? grid? 1000).map searchKey =
      keysOf (searchAssocFor up ror? grid? 1000) := by
    unfold list_orcids_for_institution keysOf
    rw [List.map_map]
    exact List.map_congr_left hpairs
  have hassoc : ∀ (P : List (String × SearchRec) → List SearchRec → Prop),
      (P [] []) →
      (∀ q, P (searchPaginate up q 1000 up.pageFuel 0 []) (consumedChunks up q 1000 up.pageFuel 0)) →
      P (searchAssocFor up ror? grid? 1000) (consumedFor up ror? grid? 1000) := by
    intro P hnil hq
    unfold searchAssocFor consumedFor
    by_cases hs : !truthy up.searchUrl
    · simpa [hs] using hnil
    · cases hqq : buildQuery ror? grid? with
      | none => simpa [hs, hqq] using hnil
      | some q =>
        simpa [hs, hqq] using hq q
  refine ⟨?_, hkeys, ?_, ?_⟩
  · rw [hkeys]
    refine hassoc (fun m _ => (keysOf m).Nodup) (by simp [keysOf]) ?_
    intro q
    rw [searchPaginate_eq_fold]
    exact nodup_keys_searchFold _ [] (by simp [keysOf])
  · refine hassoc (fun m c => keysOf m = firstOccAux [] (searchKeysOf c)) ?_ ?_
    · simp [keysOf, searchKeysOf, firstOccAux]
    · intro q
      rw [searchPaginate_eq_fold]
      have h := keys_searchFold (consumedChunks up q 1000 up.pageFuel 0) []
      simpa [keysOf] using h
  · refine hassoc (fun m c => ∀ k, k ≠ "" → lookupKey m k = lastWithKey c k) ?_ ?_
    · intro k _
      simp [lookupKey, List.find?, lastWithKey]
    · intro q k hk
      rw [searchPaginate_eq_fold]
      rw [lookup_searchFold _ [] k hk]
      have : lookupKey ([] : List (String × SearchRec)) k = none := by
        simp [lookupKey, List.find?]
      rw [this, optOr_none]

/-- Witness for C3: in a world where one page lists the id `A` twice with
different payloads, the stored record is the later one. -/
theorem search_population_dedup_witness :
    lookupKey (searchAssocFor upDup (some "r") none 1000) "A" = some recA2 := by
  have h := (search_population_dedup upDup (some "r") none).2.2.2 "A" (by decide)
  rw [h]
  decide

/-!
## Affiliation classifier: claim C4
-/

/-- One summary matches exactly when its FIRST source-carrying dict value has
a non-empty client-id path belonging to the trusted list. -/
theorem summaryManaged_iff (trusted : List String) (s : List SumVal) :
    summaryManaged trusted s = true ↔
      ∃ p, firstSourcePath s = some p ∧ p ≠ "" ∧ p ∈ trusted := by
  unfold summaryManaged
  cases h : firstSourcePath s with
  | none => simp
  | some p =>
    simp only [Option.some.injEq, Bool.and_eq_true]
    constructor
    · rintro ⟨h1, h2⟩
      refine ⟨p, rfl, ?_, ?_⟩
      · intro hc
        subst hc
        rw [(String.isEmpty_iff "").mpr rfl] at h1
        simp at h1
      · simpa using h2
    · rintro ⟨q, hq, hne, hmem⟩
      subst hq
      refine ⟨?_, by simpa using hmem⟩
      rw [Bool.not_eq_true']
      rw [Bool.eq_false_iff]
      intro hc
      exact hne ((String.isEmpty_iff _).mp hc)

/-- C4 counterexample: the classifier examines only the FIRST source-carrying
value of a summary and requires a truthy path.  A summary whose first source
has an untrusted path but whose second source has a trusted one classifies as
not managed, although a nested object with a trusted source-client-id path is
present; likewise an empty-string path belonging to the trusted list does not
classify as managed. -/
theorem classifier_counterexample :
    (specManaged (some actTwoSources) ["good"] = true ∧
     isManaged (some actTwoSources) ["good"] = false) ∧
    (specManaged (some actEmptyPath) [""] = true ∧
     isManaged (some actEmptyPath) [""] = false) := by
  decide

/-- C4 (amended): the classifier returns true iff some summary of one of the
seven sections has as its FIRST source-carrying dict value one whose
source-client-id path is non-empty and belongs to the trusted list; any
missing section, group or field is a non-match, and an absent activities
object classifies as false. -/
theorem classifier_first_source_characterisation
    (act? : Option ActivitiesSummary) (trusted : List String) :
    (isManaged act? trusted = true ↔
      ∃ a, act? = some a ∧ ∃ sd? ∈ sectionList a, ∃ sd, sd? = some sd ∧
        ∃ g ∈ sd.affiliationGroup, ∃ s ∈ g.summaries, ∃ p,
          firstSourcePath s = some p ∧ p ≠ "" ∧ p ∈ trusted) ∧
    isManaged none trusted = false := by
  constructor
  · cases act? with
    | none => simp [isManaged]
    | some a =>
      simp only [isManaged, List.any_eq_true, Option.some.injEq]
      constructor
      · rintro ⟨sd?, hmem, hsd⟩
        cases sd? with
        | none => simp at hsd
        | some sd =>
          simp only [List.any_eq_true] at hsd
          obtain ⟨g, hg, s, hs, hsm⟩ := hsd
          obtain ⟨p, hp, hne, hmm⟩ := (summaryManaged_iff trusted s).mp hsm
          exact ⟨a, rfl, some sd, hmem, sd, rfl, g, hg, s, hs, p, hp, hne, hmm⟩
      · rintro ⟨a2, ha2, sd?, hmem, sd, rfl, g, hg, s, hs, p, hp, hne, hmm⟩
        subst ha2
        refine ⟨some sd, hmem, ?_⟩
        simp only [List.any_eq_true]
        exact ⟨g, hg, s, hs, (summaryManaged_iff trusted s).mpr ⟨p, hp, hne, hmm⟩⟩
  · rfl

/-!
## Identifier healer: claim C6
-/

/-- The OR query over only a ROR identifier is the bare ROR clause. -/
theorem buildQuery_ror_only (r : String) (hr : r ≠ "") :
    buildQuery (some r) none = some (rorClause r) := by
  unfold buildQuery
  rw [(truthy_some_iff r).mpr hr]
  show (if ([rorClause r] ++ []).isEmpty = true then _ else _) = _
  rw [List.append_nil]
  rfl

/-- C6: a failing secondary-registry lookup is soft.  Every failure outcome
(network error, not-found, unexpected status) makes `fetch_grid_from_ror`
return null; with no locally recorded GRID id the healer then returns null
and leaves the database untouched, raising nothing; and the registry search
with a null GRID id runs with exactly the primary-identifier clause,
returning the matches of that clause alone. -/
theorem healer_failure_is_soft :
    (fetch_grid_from_ror RorOutcome.netError = none ∧
     fetch_grid_from_ror RorOutcome.notFound = none ∧
     (∀ c, fetch_grid_from_ror (RorOutcome.otherStatus c) = none)) ∧
    (∀ (db : Db) (up : Upstream) (ror : String),
      localGrid db.users ror = none → fetch_grid_from_ror up.gridLookup = none →
      ensure_and_heal_grid_for_ror db up ror = (none, db)) ∧
    (∀ (up : Upstream) (r : String), truthy up.searchUrl = true → r ≠ "" →
      list_orcids_for_institution up (some r) none 1000 = searchRaw up (rorClause r) 1000) := by
  refine ⟨⟨rfl, rfl, fun _ => rfl⟩, ?_, ?_⟩
  · intro db up ror hl hf
    have hres : healResolved db up ror = none := by
      simp only [healResolved, hl, hf]
      simp [truthy]
    unfold ensure_and_heal_grid_for_ror
    by_cases he : ror.isEmpty
    · simp [he]
    · simp [he, hres, truthy]
  · intro up r hs hr
    unfold list_orcids_for_institution searchAssocFor searchRaw
    rw [hs, buildQuery_ror_only r hr]
    simp

/-- Witness for C6: concrete failing lookups and the resulting primary-only
search. -/
theorem healer_failure_is_soft_witness :
    fetch_grid_from_ror (RorOutcome.otherStatus 500) = none ∧
    ensure_and_heal_grid_for_ror dbEmpty upAllFail "r" = (none, dbEmpty) ∧
    list_orcids_for_institution upAllFail (some "r") none 1000 =
      searchRaw upAllFail (rorClause "r") 1000 := by
  refine ⟨healer_failure_is_soft.1.2.2 500, ?_, ?_⟩
  · exact healer_failure_is_soft.2.1 dbEmpty upAllFail "r" (by decide) (by decide)
  · exact healer_failure_is_soft.2.2 upAllFail "r" (by decide) (by decide)

/-!
## Concurrent profile fetcher: claim C7
-/

/-- Lookup after folding the per-id fetch results into the map: an id maps to
its fetched profile exactly when the fetch succeeded. -/
theorem lookup_fold_profiles (up : Upstream) : ∀ (ids : List String)
    (m : List (String × Profile)) (k : String),
    lookupKey (ids.foldl (fun m2 oid =>
      match up.profileOf oid with
      | some p => upsert m2 oid p
      | none => m2) m) k =
      if k ∈ ids ∧ (up.profileOf k).isSome then up.profileOf k else lookupKey m k
  | [], m, k => by simp
  | i :: t, m, k => by
    simp only [List.foldl_cons]
    cases hp : up.profileOf i with
    | none =>
      rw [lookup_fold_profiles up t m k]
      by_cases hk : k = i
      · subst hk
        simp [hp]
      · simp [List.mem_cons, hk]
    | some p =>
      rw [lookup_fold_profiles up t (upsert m i p) k]
      rw [lookupKey_upsert]
      by_cases hk : k = i
      · subst hk
        by_cases hm2 : k ∈ t <;> simp [hp, hm2, List.mem_cons]
      · simp [List.mem_cons, hk]

/-- Folding the fetch results preserves distinctness of the keys. -/
theorem nodup_fold_profiles (up : Upstream) : ∀ (ids : List String)
    (m : List (String × Profile)), (keysOf m).Nodup →
    (keysOf (ids.foldl (fun m2 oid =>
      match up.profileOf oid with
      | some p => upsert m2 oid p
      | none => m2) m)).Nodup
  | [], m => fun h => h
  | i :: t, m => by
    intro h
    simp only [List.foldl_cons]
    cases hp : up.profileOf i with
    | none => exact nodup_fold_profiles up t m h
    | some p => exact nodup_fold_profiles up t _ (nodup_keysOf_upsert m i p h)

/-- C7: the concurrent fetcher totally computes a deduplicated map whose key
set is exactly the input ids with a successful (non-empty) fetch: each such
id maps to its fetched document, every failed id is absent. -/
theorem concurrent_fetch_partial_map (up : Upstream) (ids : List String)
    (hm : truthy up.memberUrl = true) (ht : truthy up.token = true) :
    (keysOf (get_all_profiles_concurrently up ids)).Nodup ∧
    (∀ k, lookupKey (get_all_profiles_concurrently up ids) k =
      if k ∈ ids ∧ (up.profileOf k).isSome then up.profileOf k else none) ∧
    (∀ k, k ∈ keysOf (get_all_profiles_concurrently up ids) ↔
      k ∈ ids ∧ (up.profileOf k).isSome = true) := by
  have hguard : get_all_profiles_concurrently up ids =
      ids.foldl (fun m2 oid =>
        match up.profileOf oid with
        | some p => upsert m2 oid p
        | none => m2) [] := by
    unfold get_all_profiles_concurrently
    simp [hm, ht]
  have hlook : ∀ k, lookupKey (get_all_profiles_concurrently up ids) k =
      if k ∈ ids ∧ (up.profileOf k).isSome then up.profileOf k else none := by
    intro k
    rw [hguard, lookup_fold_profiles up ids [] k]
    have : lookupKey ([] : List (String × Profile)) k = none := by
      simp [lookupKey, List.find?]
    rw [this]
  refine ⟨?_, hlook, ?_⟩
  · rw [hguard]
    exact nodup_fold_profiles up ids [] (by simp [keysOf])
  · intro k
    rw [← lookupKey_isSome_iff, hlook k]
    by_cases hc : k ∈ ids ∧ (up.profileOf k).isSome = true
    · simp [hc]
    · simp [hc]

/-- Witness for C7: with ids [A, B], A fetched and B failed, the map holds
exactly A. -/
theorem concurrent_fetch_partial_map_witness :
    lookupKey (get_all_profiles_concurrently upOne ["A", "B"]) "A" = some profA ∧
    lookupKey (get_all_profiles_concurrently upOne ["A", "B"]) "B" = none := by
  have h := concurrent_fetch_partial_map upOne ["A", "B"] (by decide) (by decide)
  constructor
  · rw [h.2.1 "A"]
    decide
  · rw [h.2.1 "B"]
    decide

/-!
## Cache builder lemmas: totals and tables
-/

/-- Flushing the works buffer never changes the running total. -/
theorem flushWorksBuf_total (ok : Nat → Bool) (st : WState) :
    (flushWorksBuf ok st).total = st.total := by
  unfold flushWorksBuf
  split
  · rfl
  · split <;> rfl

/-- Flushing the status buffer never changes the running total. -/
theorem flushStatusBuf_total (ok : Nat → Bool) (st : WState) :
    (flushStatusBuf ok st).total = st.total := by
  unfold flushStatusBuf
  split
  · rfl
  · split <;> rfl

/-- The threshold flushes never change the running total. -/
theorem condFlushWorks_total (ok : Nat → Bool) (st : WState) :
    (condFlushWorks ok st).total = st.total := by
  unfold condFlushWorks
  split
  · exact flushWorksBuf_total ok st
  · rfl

/-- The status threshold flush never changes the running total. -/
theorem condFlushStatus_total (ok : Nat → Bool) (st : WState) :
    (condFlushStatus ok st).total = st.total := by
  unfold condFlushStatus
  split
  · exact flushStatusBuf_total ok st
  · rfl

/-- One processed profile adds exactly its extracted row count to the total. -/
theorem processWorksProfile_total (up : Upstream) (ror : String) (trusted : List String)
    (st : WState) (e : String × Profile) :
    (processWorksProfile up ror trusted st e).total =
      st.total + (extractWorkRows ror e.1 e.2).length := by
  unfold processWorksProfile
  rw [condFlushStatus_total, condFlushWorks_total]

/-- The total after the processing loop is the sum of the extracted row
counts. -/
theorem foldWorks_total (up : Upstream) (ror : String) (trusted : List String) :
    ∀ (pm : List (String × Profile)) (st : WState),
    (pm.foldl (processWorksProfile up ror trusted) st).total =
      st.total + (pm.map fun e => (extractWorkRows ror e.1 e.2).length).sum
  | [], st => by simp
  | e :: t, st => by
    simp only [List.foldl_cons, List.map_cons, List.sum_cons]
    rw [foldWorks_total up ror trusted t _]
    rw [processWorksProfile_total]
    omega

/-- The works rebuild returns the raw in-memory extraction total. -/
theorem build_works_count (db : Db) (up : Upstream) (ror : String) :
    (build_works_cache_for_ror db up ror).1 = works_extraction_total db up ror := by
  unfold build_works_cache_for_ror works_extraction_total works_profiles_view
  by_cases h : (list_orcids_for_institution up (some ror)
      (ensure_and_heal_grid_for_ror db up ror).1 1000).isEmpty = true
  · simp [h]
  · simp only [h, Bool.false_eq_true, if_false]
    rw [flushStatusBuf_total, flushWorksBuf_total]
    rw [foldWorks_total]
    simp

/-- Flushing the funding buffer never changes the running total. -/
theorem flushFundingBuf_total (ok : Nat → Bool) (st : FState) :
    (flushFundingBuf ok st).total = st.total := by
  unfold flushFundingBuf
  split
  · rfl
  · split <;> rfl

/-- The funding threshold flush never changes the running total. -/
theorem condFlushFunding_total (ok : Nat → Bool) (st : FState) :
    (condFlushFunding ok st).total = st.total := by
  unfold condFlushFunding
  split
  · exact flushFundingBuf_total ok st
  · rfl

/-- One processed profile adds exactly its extracted funding row count. -/
theorem processFundingProfile_total (up : Upstream) (ror : String)
    (st : FState) (e : String × Profile) :
    (processFundingProfile up ror st e).total =
      st.total + (extractFundingRows ror e.1 e.2).length := by
  unfold processFundingProfile
  rw [condFlushFunding_total]

/-- The funding total after the processing loop. -/
theorem foldFundings_total (up : Upstream) (ror : String) :
    ∀ (pm : List (String × Profile)) (st : FState),
    (pm.foldl (processFundingProfile up ror) st).total =
      st.total + (pm.map fun e => (extractFundingRows ror e.1 e.2).length).sum
  | [], st => by simp
  | e :: t, st => by
    simp only [List.foldl_cons, List.map_cons, List.sum_cons]
    rw [foldFundings_total up ror t _]
    rw [processFundingProfile_total]
    omega

/-- The fundings rebuild returns the raw in-memory extraction total. -/
theorem build_fundings_count (db : Db) (up : Upstream) (ror : String) :
    (build_fundings_cache_for_ror db up ror).1 = fundings_extraction_total db up ror := by
  unfold build_fundings_cache_for_ror fundings_extraction_total works_profiles_view
  by_cases h : (list_orcids_for_institution up (some ror)
      (ensure_and_heal_grid_for_ror db up ror).1 1000).isEmpty = true
  · simp [h]
  · simp only [h, Bool.false_eq_true, if_false]
    rw [flushFundingBuf_total]
    rw [foldFundings_total]
    simp

/-- A successful (or empty) works flush moves the whole buffer to the table. -/
theorem flushWorksBuf_allOk (ok : Nat → Bool) (st : WState) (h : ∀ n, ok n = true) :
    (flushWorksBuf ok st).works = st.works ++ st.wbuf ∧ (flushWorksBuf ok st).wbuf = [] := by
  unfold flushWorksBuf
  by_cases he : st.wbuf.isEmpty = true
  · have hnil : st.wbuf = [] := by
      cases hw : st.wbuf with
      | nil => rfl
      | cons a l =>
        rw [hw] at he
        simp at he
    simp [he, hnil]
  · simp [he, h st.flushIdx]

/-- The status flush does not touch the works table or buffer. -/
theorem flushStatusBuf_works (ok : Nat → Bool) (st : WState) :
    (flushStatusBuf ok st).works = st.works ∧ (flushStatusBuf ok st).wbuf = st.wbuf := by
  unfold flushStatusBuf
  split
  · exact ⟨rfl, rfl⟩
  · split <;> exact ⟨rfl, rfl⟩

/-- The conditional status flush does not touch the works table or buffer. -/
theorem condFlushStatus_works (ok : Nat → Bool) (st : WState) :
    (condFlushStatus ok st).works = st.works ∧ (condFlushStatus ok st).wbuf = st.wbuf := by
  unfold condFlushStatus
  split
  · exact flushStatusBuf_works ok st
  · exact ⟨rfl, rfl⟩

/-- Under all-successful commits the conditional works flush preserves the
concatenation of table and buffer. -/
theorem condFlushWorks_allOk (ok : Nat → Bool) (st : WState) (h : ∀ n, ok n = true) :
    (condFlushWorks ok st).works ++ (condFlushWorks ok st).wbuf = st.works ++ st.wbuf := by
  unfold condFlushWorks
  split
  · rw [(flushWorksBuf_allOk ok st h).1, (flushWorksBuf_allOk ok st h).2, List.append_nil]
  · rfl

/-- Under all-successful commits the processing loop appends exactly the
extracted rows to table-plus-buffer. -/
theorem foldWorks_inv (up : Upstream) (ror : String) (trusted : List String)
    (h : ∀ n, up.flushOk n = true) :
    ∀ (pm : List (String × Profile)) (st : WState),
    (pm.foldl (processWorksProfile up ror trusted) st).works ++
      (pm.foldl (processWorksProfile up ror trusted) st).wbuf =
      st.works ++ st.wbuf ++ (pm.flatMap fun e => extractWorkRows ror e.1 e.2)
  | [], st => by simp
  | e :: t, st => by
    simp only [List.foldl_cons, List.flatMap_cons]
    rw [foldWorks_inv up ror trusted h t _]
    have hstep : (processWorksProfile up ror trusted st e).works ++
        (processWorksProfile up ror trusted st e).wbuf =
        st.works ++ (st.wbuf ++ extractWorkRows ror e.1 e.2) := by
      unfold processWorksProfile
      rw [(condFlushStatus_works up.flushOk _).1, (condFlushStatus_works up.flushOk _).2]
      rw [condFlushWorks_allOk up.flushOk _ h]
    rw [hstep]
    simp [List.append_assoc]

/-- Under all-successful commits the works table after a rebuild is the purged
table followed by every extracted row (or untouched when discovery was
empty). -/
theorem build_works_table (db : Db) (up : Upstream) (ror : String)
    (h : ∀ n, up.flushOk n = true) :
    (build_works_cache_for_ror db up ror).2.works =
      if (list_orcids_for_institution up (some ror)
          (ensure_and_heal_grid_for_ror db up ror).1 1000).isEmpty
      then (ensure_and_heal_grid_for_ror db up ror).2.works
      else (((ensure_and_heal_grid_for_ror db up ror).2.works.filter
          fun w => !(w.rorId == ror)) ++ works_extraction_rows db up ror) := by
  unfold build_works_cache_for_ror works_extraction_rows works_profiles_view
  by_cases hr : (list_orcids_for_institution up (some ror)
      (ensure_and_heal_grid_for_ror db up ror).1 1000).isEmpty = true
  · simp [hr]
  · simp only [hr, Bool.false_eq_true, if_false]
    rw [(flushStatusBuf_works up.flushOk _).1]
    rw [(flushWorksBuf_allOk up.flushOk _ h).1]
    rw [foldWorks_inv up ror (trustedIdsFor up (ensure_and_heal_grid_for_ror db up ror).2.users ror) h]
    simp

/-- The healer never changes the works, fundings or statuses tables. -/
theorem heal_preserves_tables (db : Db) (up : Upstream) (ror : String) :
    (ensure_and_heal_grid_for_ror db up ror).2.works = db.works ∧
    (ensure_and_heal_grid_for_ror db up ror).2.fundings = db.fundings ∧
    (ensure_and_heal_grid_for_ror db up ror).2.statuses = db.statuses := by
  unfold ensure_and_heal_grid_for_ror
  dsimp only
  repeat' split
  all_goals exact ⟨rfl, rfl, rfl⟩

/-- C9: when the discovery phase yields an empty population, both rebuilds
return 0 before the purge step, and the institution's cached Publication,
Grant and AffiliationStatus rows are all left unchanged. -/
theorem empty_population_preserves_cache (db : Db) (up : Upstream) (ror : String)
    (h : list_orcids_for_institution up (some ror)
      (ensure_and_heal_grid_for_ror db up ror).1 1000 = []) :
    (build_works_cache_for_ror db up ror).1 = 0 ∧
    (build_works_cache_for_ror db up ror).2.works = db.works ∧
    (build_works_cache_for_ror db up ror).2.statuses = db.statuses ∧
    (build_works_cache_for_ror db up ror).2.fundings = db.fundings ∧
    (build_fundings_cache_for_ror db up ror).1 = 0 ∧
    (build_fundings_cache_for_ror db up ror).2.works = db.works ∧
    (build_fundings_cache_for_ror db up ror).2.statuses = db.statuses ∧
    (build_fundings_cache_for_ror db up ror).2.fundings = db.fundings := by
  have hp := heal_preserves_tables db up ror
  have hw : build_works_cache_for_ror db up ror =
      (0, (ensure_and_heal_grid_for_ror db up ror).2) := by
    unfold build_works_cache_for_ror
    simp [h]
  have hf : build_fundings_cache_for_ror db up ror =
      (0, (ensure_and_heal_grid_for_ror db up ror).2) := by
    unfold build_fundings_cache_for_ror
    simp [h]
  rw [hw, hf]
  exact ⟨rfl, hp.1, hp.2.2, hp.2.1, rfl, hp.1, hp.2.2, hp.2.1⟩

/-- Witness for C9: every page request fails, so discovery is empty and the
pre-populated rows of the institution survive both rebuilds. -/
theorem empty_population_preserves_cache_witness :
    (build_works_cache_for_ror dbPre upAllFail "r").1 = 0 ∧
    (build_works_cache_for_ror dbPre upAllFail "r").2.works = dbPre.works ∧
    (build_works_cache_for_ror dbPre upAllFail "r").2.statuses = dbPre.statuses ∧
    (build_works_cache_for_ror dbPre upAllFail "r").2.fundings = dbPre.fundings ∧
    (build_fundings_cache_for_ror dbPre upAllFail "r").1 = 0 ∧
    (build_fundings_cache_for_ror dbPre upAllFail "r").2.works = dbPre.works ∧
    (build_fundings_cache_for_ror dbPre upAllFail "r").2.statuses = dbPre.statuses ∧
    (build_fundings_cache_for_ror dbPre upAllFail "r").2.fundings = dbPre.fundings :=
  empty_population_preserves_cache dbPre upAllFail "r" (by decide)

/-- Pagination ignores the flush-commit oracle. -/
theorem searchPaginate_withFlushOk (up : Upstream) (f : Nat → Bool) (q : String) (rows : Nat) :
    ∀ fuel start acc, searchPaginate (withFlushOk up f) q rows fuel start acc =
      searchPaginate up q rows fuel start acc
  | 0, _, _ => rfl
  | fuel + 1, start, acc => by
    simp only [searchPaginate]
    have hp : (withFlushOk up f).pages = up.pages := rfl
    rw [hp]
    cases up.pages q start with
    | none => rfl
    | some chunk =>
      by_cases he : chunk.isEmpty = true
      · simp [he]
      · by_cases hl : chunk.length < rows
        · simp [he, hl]
        · simp [he, hl, searchPaginate_withFlushOk up f q rows fuel]

/-- The discovery and fetch phases ignore the flush-commit oracle. -/
theorem works_profiles_view_withFlushOk (db : Db) (up : Upstream) (ror : String)
    (f : Nat → Bool) :
    works_profiles_view db (withFlushOk up f) ror = works_profiles_view db up ror := by
  have hheal : ensure_and_heal_grid_for_ror db (withFlushOk up f) ror =
      ensure_and_heal_grid_for_ror db up ror := rfl
  have hlist : ∀ g, list_orcids_for_institution (withFlushOk up f) (some ror) g 1000 =
      list_orcids_for_institution up (some ror) g 1000 := by
    intro g
    unfold list_orcids_for_institution searchAssocFor
    have hs : (withFlushOk up f).searchUrl = up.searchUrl := rfl
    have hfuel : (withFlushOk up f).pageFuel = up.pageFuel := rfl
    rw [hs, hfuel]
    by_cases hg : truthy up.searchUrl = true
    · cases hq : buildQuery (some ror) g with
      | none => simp [hg, hq]
      | some q => simp [hg, hq, searchPaginate_withFlushOk up f q 1000]
    · simp [hg]
  have hget : ∀ ids, get_all_profiles_concurrently (withFlushOk up f) ids =
      get_all_profiles_concurrently up ids := fun _ => rfl
  simp only [works_profiles_view, hheal, hlist, hget]

/-- C1 (amended): the integer returned by a Publications or Grants rebuild is
the raw number of rows extracted and buffered in memory, independent of the
flush-commit outcomes. -/
theorem rebuild_count_is_inmemory_total (db : Db) (up : Upstream) (ror : String)
    (f : Nat → Bool) :
    (build_works_cache_for_ror db up ror).1 = works_extraction_total db up ror ∧
    (build_fundings_cache_for_ror db up ror).1 = fundings_extraction_total db up ror ∧
    (build_works_cache_for_ror db (withFlushOk up f) ror).1 =
      (build_works_cache_for_ror db up ror).1 ∧
    (build_fundings_cache_for_ror db (withFlushOk up f) ror).1 =
      (build_fundings_cache_for_ror db up ror).1 := by
  refine ⟨build_works_count db up ror, build_fundings_count db up ror, ?_, ?_⟩
  · rw [build_works_count db (withFlushOk up f) ror, build_works_count db up ror]
    unfold works_extraction_total
    rw [works_profiles_view_withFlushOk]
  · rw [build_fundings_count db (withFlushOk up f) ror, build_fundings_count db up ror]
    unfold fundings_extraction_total
    rw [works_profiles_view_withFlushOk]

/-- C1 counterexample: the single discovered profile contributes one work
row, every flush commit fails, yet the rebuild returns 1 while zero rows are
committed for the institution — the returned count is the in-memory total,
not the committed sum. -/
theorem works_count_counterexample :
    (build_works_cache_for_ror dbEmpty upOneFlushFail "r").1 = 1 ∧
    worksFor (build_works_cache_for_ror dbEmpty upOneFlushFail "r").2 "r" = [] ∧
    (build_works_cache_for_ror dbEmpty upOneFlushFail "r").1 ≠
      (worksFor (build_works_cache_for_ror dbEmpty upOneFlushFail "r").2 "r").length := by
  decide

/-!
## Run-log writers: claims C8 and C10
-/

/-- C8: a failing rebuild invocation (CLI or web, works or fundings target)
appends exactly one run-log row with status `failed`, the exception text as
the error, row count 0, and `finished_at` equal to the creation instant. -/
theorem failed_rebuild_logged (target ror e : String) (now : Nat) (log : List RunLogRow)
    (h : ror ≠ "") :
    cli_sync_step target ror (Except.error e) now true log =
      log ++ [⟨target, ror, "failed", 0, some e, now, now⟩] ∧
    rebuild_cache_route "works" ror (Except.error e) now true log =
      log ++ [⟨"works", ror, "failed", 0, some e, now, now⟩] ∧
    rebuild_cache_route "fundings" ror (Except.error e) now true log =
      log ++ [⟨"fundings", ror, "failed", 0, some e, now, now⟩] := by
  refine ⟨?_, ?_, ?_⟩
  · unfold cli_sync_step log_execution_run
    have he : ror.isEmpty = false := by
      rw [Bool.eq_false_iff]
      intro hc
      exact h ((String.isEmpty_iff ror).mp hc)
    simp [he]
  · unfold rebuild_cache_route log_run_web
    simp
  · unfold rebuild_cache_route log_run_web
    rw [if_neg (by decide)]
    simp

/-- Witness for C8: a concrete failing CLI works run writes the failed row. -/
theorem failed_rebuild_logged_witness :
    cli_sync_step "works" "r" (Except.error "boom") 7 true [] =
      [⟨"works", "r", "failed", 0, some "boom", 7, 7⟩] :=
  (failed_rebuild_logged "works" "r" "boom" 7 [] (by decide)).1

/-- C10: every run-log row either pre-existed or was written by one of the
two writers with `started_at = finished_at` and a status of `success` or
`failed`; a `running` status row is never produced. -/
theorem runlog_rows_wellformed (target ror : String) (outcome : Except String Nat)
    (now : Nat) (commitOk : Bool) (log : List RunLogRow) (row : RunLogRow) :
    (row ∈ cli_sync_step target ror outcome now commitOk log →
      row ∈ log ∨ (row.startedAt = row.finishedAt ∧
        (row.status = "success" ∨ row.status = "failed"))) ∧
    (∀ t2, row ∈ rebuild_cache_route t2 ror outcome now commitOk log →
      row ∈ log ∨ (row.startedAt = row.finishedAt ∧
        (row.status = "success" ∨ row.status = "failed"))) := by
  have hweb : ∀ (t3 status : String) (n : Nat) (err : Option String),
      (status = "success" ∨ status = "failed") →
      row ∈ log_run_web t3 ror status n err now commitOk log →
      row ∈ log ∨ (row.startedAt = row.finishedAt ∧
        (row.status = "success" ∨ row.status = "failed")) := by
    intro t3 status n err hst hr
    unfold log_run_web at hr
    by_cases hc : commitOk = true
    · rw [if_pos hc] at hr
      rcases List.mem_append.mp hr with h2 | h2
      · exact Or.inl h2
      · right
        simp at h2
        subst h2
        exact ⟨rfl, hst⟩
    · rw [Bool.not_eq_true] at hc
      rw [hc] at hr
      simp at hr
      exact Or.inl hr
  have hcli : ∀ (t3 r3 status : String) (n : Nat) (err : Option String),
      (status = "success" ∨ status = "failed") →
      row ∈ log_execution_run t3 r3 status n err now commitOk log →
      row ∈ log ∨ (row.startedAt = row.finishedAt ∧
        (row.status = "success" ∨ row.status = "failed")) := by
    intro t3 r3 status n err hst hr
    unfold log_execution_run at hr
    by_cases hre : r3.isEmpty = true
    · rw [if_pos hre] at hr
      exact Or.inl hr
    · rw [if_neg hre] at hr
      by_cases hc : commitOk = true
      · rw [if_pos hc] at hr
        rcases List.mem_append.mp hr with h2 | h2
        · exact Or.inl h2
        · right
          simp at h2
          subst h2
          exact ⟨rfl, hst⟩
      · rw [Bool.not_eq_true] at hc
        rw [hc] at hr
        simp at hr
        exact Or.inl hr
  constructor
  · intro hr
    cases outcome with
    | ok n => exact hcli target ror "success" n none (Or.inl rfl) hr
    | error e => exact hcli target ror "failed" 0 (some e) (Or.inr rfl) hr
  · intro t2 hr
    unfold rebuild_cache_route at hr
    by_cases hw : t2 = "works"
    · rw [if_pos hw] at hr
      cases outcome with
      | ok n => exact hweb "works" "success" n none (Or.inl rfl) hr
      | error e => exact hweb "works" "failed" 0 (some e) (Or.inr rfl) hr
    · rw [if_neg hw] at hr
      by_cases hf : t2 = "fundings"
      · rw [if_pos hf] at hr
        cases outcome with
        | ok n => exact hweb "fundings" "success" n none (Or.inl rfl) hr
        | error e => exact hweb "fundings" "failed" 0 (some e) (Or.inr rfl) hr
      · rw [if_neg hf] at hr
        exact Or.inl hr

/-- Witness for C10: a successful CLI run's row has equal timestamps and the
`success` status. -/
theorem runlog_rows_wellformed_witness :
    (⟨"works", "r", "success", 5, none, 7, 7⟩ : RunLogRow) ∈ ([] : List RunLogRow) ∨
    ((⟨"works", "r", "success", 5, none, 7, 7⟩ : RunLogRow).startedAt =
        (⟨"works", "r", "success", 5, none, 7, 7⟩ : RunLogRow).finishedAt ∧
      ((⟨"works", "r", "success", 5, none, 7, 7⟩ : RunLogRow).status = "success" ∨
        (⟨"works", "r", "success", 5, none, 7, 7⟩ : RunLogRow).status = "failed")) :=
  (runlog_rows_wellformed "works" "r" (Except.ok 5) 7 true []
    ⟨"works", "r", "success", 5, none, 7, 7⟩).1 (by decide)

/-!
## Healer stability and claim C5
-/

/-- `localGrid` over a cons as a conditional. -/
theorem localGrid_cons (u : UserRow) (t : List UserRow) (ror : String) :
    localGrid (u :: t) ror =
      if (u.rorId == some ror && truthy u.gridId) = true then u.gridId else localGrid t ror := by
  unfold localGrid
  rw [find?_cons_eq]
  by_cases h : (u.rorId == some ror && truthy u.gridId) = true
  · rw [if_pos h, if_pos h]
  · rw [if_neg h, if_neg h]

/-- A locally found GRID id is always truthy. -/
theorem localGrid_truthy (users : List UserRow) (ror : String) :
    localGrid users ror = none ∨ truthy (localGrid users ror) = true := by
  unfold localGrid
  cases h : users.find? (fun u => u.rorId == some ror && truthy u.gridId) with
  | none => exact Or.inl rfl
  | some u =>
    right
    have hp := List.find?_some h
    rw [Bool.and_eq_true] at hp
    exact hp.2

/-- `healFill` over a cons. -/
theorem healFill_cons (u : UserRow) (t : List UserRow) (ror : String) (g : Option String) :
    healFill (u :: t) ror g =
      (if (u.rorId == some ror && !truthy u.gridId) = true then { u with gridId := g } else u)
        :: healFill t ror g := by
  unfold healFill
  rw [List.map_cons]

/-- Back-filling the found GRID id leaves it the locally found one. -/
theorem localGrid_healFill_found (ror : String) (gv : String) (hg : truthy (some gv) = true) :
    ∀ users, localGrid users ror = some gv →
      localGrid (healFill users ror (some gv)) ror = some gv
  | [], h => by simp [localGrid, List.find?] at h
  | u :: t, h => by
    rw [localGrid_cons] at h
    rw [healFill_cons, localGrid_cons]
    by_cases hc : (u.rorId == some ror && truthy u.gridId) = true
    · rw [if_pos hc] at h
      have hc2 := hc
      rw [Bool.and_eq_true] at hc2
      have hfill : ¬(u.rorId == some ror && !truthy u.gridId) = true := by
        simp [hc2.2]
      rw [if_neg hfill, if_pos hc]
      exact h
    · rw [if_neg hc] at h
      by_cases hfill : (u.rorId == some ror && !truthy u.gridId) = true
      · rw [if_pos hfill]
        have hfill2 := hfill
        rw [Bool.and_eq_true] at hfill2
        have hcond : (({ u with gridId := some gv } : UserRow).rorId == some ror &&
            truthy ({ u with gridId := some gv } : UserRow).gridId) = true := by
          rw [Bool.and_eq_true]
          exact ⟨hfill2.1, hg⟩
        rw [if_pos hcond]
      · rw [if_neg hfill, if_neg hc]
        exact localGrid_healFill_found ror gv hg t h

/-- Back-filling a fetched GRID id into a database with no locally found one
leaves either nothing found or exactly the filled id. -/
theorem localGrid_healFill_none (ror : String) (gv : String) (hg : truthy (some gv) = true) :
    ∀ users, localGrid users ror = none →
      localGrid (healFill users ror (some gv)) ror = none ∨
      localGrid (healFill users ror (some gv)) ror = some gv
  | [], _ => Or.inl rfl
  | u :: t, h => by
    rw [localGrid_cons] at h
    rw [healFill_cons, localGrid_cons]
    by_cases hc : (u.rorId == some ror && truthy u.gridId) = true
    · rw [if_pos hc] at h
      rw [Bool.and_eq_true] at hc
      rw [h] at hc
      exact absurd hc.2 (by simp [truthy])
    · rw [if_neg hc] at h
      by_cases hfill : (u.rorId == some ror && !truthy u.gridId) = true
      · right
        rw [if_pos hfill]
        have hfill2 := hfill
        rw [Bool.and_eq_true] at hfill2
        have hcond : (({ u with gridId := some gv } : UserRow).rorId == some ror &&
            truthy ({ u with gridId := some gv } : UserRow).gridId) = true := by
          rw [Bool.and_eq_true]
          exact ⟨hfill2.1, hg⟩
        rw [if_pos hcond]
      · rw [if_neg hfill, if_neg hc]
        exact localGrid_healFill_none ror gv hg t h

/-- For a non-empty institution id the healer returns the resolved GRID id. -/
theorem heal_fst (db : Db) (up : Upstream) (ror : String) (hre : ror.isEmpty = false) :
    (ensure_and_heal_grid_for_ror db up ror).1 = healResolved db up ror := by
  unfold ensure_and_heal_grid_for_ror
  rw [if_neg (by simp [hre])]
  dsimp only
  split
  · split <;> rfl
  · rfl

/-- The healed database is the original or the back-filled one (the latter
only for a truthy resolved id). -/
theorem heal_snd_cases (db : Db) (up : Upstream) (ror : String) :
    (ensure_and_heal_grid_for_ror db up ror).2 = db ∨
    ((ensure_and_heal_grid_for_ror db up ror).2 =
        { db with users := healFill db.users ror (healResolved db up ror) } ∧
      truthy (healResolved db up ror) = true) := by
  unfold ensure_and_heal_grid_for_ror
  by_cases hre : ror.isEmpty = true
  · rw [if_pos hre]
    exact Or.inl rfl
  · rw [if_neg hre]
    dsimp only
    by_cases ht : truthy (healResolved db up ror) = true
    · rw [if_pos ht]
      by_cases hfill : ((db.users.any fun u => u.rorId == some ror && !truthy u.gridId) &&
          up.healCommitOk) = true
      · rw [if_pos hfill]
        exact Or.inr ⟨rfl, ht⟩
      · rw [if_neg hfill]
        exact Or.inl rfl
    · rw [if_neg ht]
      exact Or.inl rfl

/-- Resolving again after the back-fill yields the same GRID id. -/
theorem healResolved_fill_stable (db : Db) (up : Upstream) (ror : String)
    (ht : truthy (healResolved db up ror) = true) :
    healResolved { db with users := healFill db.users ror (healResolved db up ror) } up ror =
      healResolved db up ror := by
  cases hL : localGrid db.users ror with
  | some gv =>
    have hgv : truthy (some gv) = true := by
      rcases localGrid_truthy db.users ror with h | h
      · rw [hL] at h
        exact absurd h (by simp)
      · rw [hL] at h
        exact h
    have hg : healResolved db up ror = some gv := by
      unfold healResolved
      rw [hL, if_pos hgv]
    rw [hg]
    have h2 := localGrid_healFill_found ror gv hgv db.users hL
    show (if truthy (localGrid (healFill db.users ror (some gv)) ror) = true
        then localGrid (healFill db.users ror (some gv)) ror
        else fetch_grid_from_ror up.gridLookup) = some gv
    rw [h2, if_pos hgv]
  | none =>
    have hg : healResolved db up ror = fetch_grid_from_ror up.gridLookup := by
      unfold healResolved
      rw [hL, if_neg (by simp [truthy])]
    cases hfe : fetch_grid_from_ror up.gridLookup with
    | none =>
      rw [hg, hfe] at ht
      exact absurd ht (by simp [truthy])
    | some gv =>
      have hgv : truthy (some gv) = true := by
        rw [hg, hfe] at ht
        exact ht
      rw [hg, hfe]
      rcases localGrid_healFill_none ror gv hgv db.users hL with h2 | h2
      · show (if truthy (localGrid (healFill db.users ror (some gv)) ror) = true
            then localGrid (healFill db.users ror (some gv)) ror
            else fetch_grid_from_ror up.gridLookup) = some gv
        rw [h2, if_neg (by simp [truthy]), hfe]
      · show (if truthy (localGrid (healFill db.users ror (some gv)) ror) = true
            then localGrid (healFill db.users ror (some gv)) ror
            else fetch_grid_from_ror up.gridLookup) = some gv
        rw [h2, if_pos hgv]

/-- Healing an already healed database resolves the same GRID id. -/
theorem heal_fst_stable (db : Db) (up : Upstream) (ror : String) :
    (ensure_and_heal_grid_for_ror (ensure_and_heal_grid_for_ror db up ror).2 up ror).1 =
      (ensure_and_heal_grid_for_ror db up ror).1 := by
  by_cases hre : ror.isEmpty = true
  · unfold ensure_and_heal_grid_for_ror
    simp [hre]
  · have hre2 : ror.isEmpty = false := by
      rw [Bool.not_eq_true] at hre
      exact hre
    rw [heal_fst _ up ror hre2, heal_fst db up ror hre2]
    rcases heal_snd_cases db up ror with h2 | ⟨h2, ht⟩
    · rw [h2]
    · rw [h2]
      exact healResolved_fill_stable db up ror ht

/-- The resolved GRID id only depends on the user table. -/
theorem healResolved_only_users (db db' : Db) (up : Upstream) (ror : String)
    (h : db'.users = db.users) : healResolved db' up ror = healResolved db up ror := by
  unfold healResolved
  rw [h]

/-- The works rebuild does not change the user table beyond the healing step. -/
theorem build_works_users (db : Db) (up : Upstream) (ror : String) :
    (build_works_cache_for_ror db up ror).2.users =
      (ensure_and_heal_grid_for_ror db up ror).2.users := by
  unfold build_works_cache_for_ror
  by_cases h : (list_orcids_for_institution up (some ror)
      (ensure_and_heal_grid_for_ror db up ror).1 1000).isEmpty = true
  · simp [h]
  · simp [h]

/-- A second healing pass, run on the state the works rebuild leaves behind,
resolves the same GRID id as the first. -/
theorem run2_heal_fst (db : Db) (up : Upstream) (ror : String) :
    (ensure_and_heal_grid_for_ror (build_works_cache_for_ror db up ror).2 up ror).1 =
      (ensure_and_heal_grid_for_ror db up ror).1 := by
  by_cases hre : ror.isEmpty = true
  · unfold ensure_and_heal_grid_for_ror
    simp [hre]
  · have hre2 : ror.isEmpty = false := by
      rw [Bool.not_eq_true] at hre
      exact hre
    rw [heal_fst _ up ror hre2]
    rw [healResolved_only_users (ensure_and_heal_grid_for_ror db up ror).2
      (build_works_cache_for_ror db up ror).2 up ror (build_works_users db up ror)]
    rw [← heal_fst (ensure_and_heal_grid_for_ror db up ror).2 up ror hre2]
    exact heal_fst_stable db up ror

/-- The processed profiles only depend on the database through the healed
GRID id. -/
theorem works_profiles_view_congr (db db' : Db) (up : Upstream) (ror : String)
    (h : (ensure_and_heal_grid_for_ror db' up ror).1 =
      (ensure_and_heal_grid_for_ror db up ror).1) :
    works_profiles_view db' up ror = works_profiles_view db up ror := by
  simp only [works_profiles_view]
  rw [h]

/-- Every row extracted from one profile belongs to the institution. -/
theorem extractWorkRows_ror (ror oid : String) (p : Profile) :
    ∀ r ∈ extractWorkRows ror oid p, r.rorId = ror := by
  intro r hr
  unfold extractWorkRows at hr
  rw [List.mem_flatMap] at hr
  obtain ⟨g, _, hr2⟩ := hr
  rw [List.mem_map] at hr2
  obtain ⟨w, _, hrw⟩ := hr2
  rw [← hrw]
  rfl

/-- Every extracted work row of a rebuild belongs to the institution. -/
theorem works_extraction_rows_ror (db : Db) (up : Upstream) (ror : String) :
    ∀ r ∈ works_extraction_rows db up ror, r.rorId = ror := by
  intro r hr
  unfold works_extraction_rows at hr
  rw [List.mem_flatMap] at hr
  obtain ⟨e, _, hr2⟩ := hr
  exact extractWorkRows_ror ror e.1 e.2 r hr2

/-- Rows surviving the purge filter never match the institution again. -/
theorem filter_purged_works (l : List WorkRow) (ror : String) :
    ((l.filter fun w => !(w.rorId == ror)).filter fun w => w.rorId == ror) = [] := by
  induction l with
  | nil => rfl
  | cons w t ih =>
    by_cases h : (w.rorId == ror) = true
    · simp [List.filter_cons, h, ih]
    · simp [List.filter_cons, h, ih]

/-- The institution's rows of a purged-then-replaced table are exactly the
inserted rows. -/
theorem filter_purged_append (X R : List WorkRow) (ror : String)
    (h : ∀ r ∈ R, r.rorId = ror) :
    (((X.filter fun w => !(w.rorId == ror)) ++ R).filter fun w => w.rorId == ror) = R := by
  rw [List.filter_append, filter_purged_works, List.nil_append]
  rw [List.filter_eq_self]
  intro a ha
  simp [h a ha]

/-- C5: with a fixed upstream and all storage commits succeeding, running the
Publications rebuild twice returns the same row count both times, and the
institution's cached work rows after the second run equal those after the
first (full replace, not additive). -/
theorem works_rebuild_idempotent (db : Db) (up : Upstream) (ror : String)
    (hf : ∀ n, up.flushOk n = true) (hcommit : up.healCommitOk = true) :
    (build_works_cache_for_ror (build_works_cache_for_ror db up ror).2 up ror).1 =
      (build_works_cache_for_ror db up ror).1 ∧
    worksFor (build_works_cache_for_ror (build_works_cache_for_ror db up ror).2 up ror).2 ror =
      worksFor (build_works_cache_for_ror db up ror).2 ror := by
  have hfst := run2_heal_fst db up ror
  have hview : works_profiles_view (build_works_cache_for_ror db up ror).2 up ror =
      works_profiles_view db up ror :=
    works_profiles_view_congr db (build_works_cache_for_ror db up ror).2 up ror hfst
  constructor
  · rw [build_works_count, build_works_count]
    unfold works_extraction_total
    rw [hview]
  · have hrows2 : works_extraction_rows (build_works_cache_for_ror db up ror).2 up ror =
        works_extraction_rows db up ror := by
      unfold works_extraction_rows
      rw [hview]
    have hpre2 := heal_preserves_tables (build_works_cache_for_ror db up ror).2 up ror
    have hpre1 := heal_preserves_tables db up ror
    unfold worksFor
    rw [build_works_table (build_works_cache_for_ror db up ror).2 up ror hf,
        build_works_table db up ror hf, hfst, hrows2, hpre2.1, hpre1.1]
    by_cases hemp : (list_orcids_for_institution up (some ror)
        (ensure_and_heal_grid_for_ror db up ror).1 1000).isEmpty = true
    · rw [if_pos hemp, if_pos hemp]
      have hw1 : (build_works_cache_for_ror db up ror).2.works = db.works := by
        rw [build_works_table db up ror hf, if_pos hemp, hpre1.1]
      rw [hw1]
    · rw [if_neg hemp, if_neg hemp]
      rw [filter_purged_append _ _ ror (works_extraction_rows_ror db up ror)]
      rw [filter_purged_append _ _ ror (works_extraction_rows_ror db up ror)]

/-- Witness for C5: two consecutive rebuilds on the one-researcher world
return equal counts and leave equal institution rows. -/
theorem works_rebuild_idempotent_witness :
    (build_works_cache_for_ror (build_works_cache_for_ror dbEmpty upOne "r").2 upOne "r").1 =
      (build_works_cache_for_ror dbEmpty upOne "r").1 ∧
    worksFor (build_works_cache_for_ror
        (build_works_cache_for_ror dbEmpty upOne "r").2 upOne "r").2 "r" =
      worksFor (build_works_cache_for_ror dbEmpty upOne "r").2 "r" :=
  works_rebuild_idempotent dbEmpty upOne "r" (fun _ => rfl) rfl
